import Mathlib

/-!
Verification development for the PolyWord advanced word-cloud placement
engine.  The definitions below are a shallow embedding of the JavaScript
sources:

* `frontend/src/advancedCloud/advancedSpiralPlacer.js`
  (`calculateCoverage`, `placeWordsAdvanced`, `tryPlaceOne`,
  `insideCanvasRect`, `canPlaceAt`, `stampOccupied`),
* `frontend/src/advancedCloud/maskUtils.js` (`morphMask` and the
  `shapePadding` dispatch of `createBuiltInShapeMask` / `loadImageMask`),
* `frontend/src/advancedCloud/spriteWordMask.js` (the crop/padding stage
  of `rasterizeWordToMask`),
* `frontend/src/renderSpiralAdvanced.js` (the adaptive Phase-1 loop, the
  force sub-pass, `findWidestAvailableSpace` and the duplicate fill phase).

Modelling conventions:

* JavaScript numbers are modelled as `ℚ` (the code performs no operation
  whose result the claims depend on beyond field arithmetic, `Math.floor`,
  `Math.round`, comparisons, `Math.min`/`Math.max`).  `Math.PI`,
  `Math.cos`, `Math.sin`, `Math.pow` and `Math.random` are external
  inputs of the model (`Env` below), since their float values never
  matter for the claims, only the control flow around them.
* `Uint8Array`s are modelled as `List ℕ`.  Out-of-range reads give `0`
  (JS gives `undefined`, which compares unequal to `1` exactly like `0`
  does in every read of the sources), out-of-range writes are dropped
  (`List.set` is the identity out of range, exactly like typed-array
  stores).
* The canvas text rasterizer (`OffscreenCanvas`, `measureText`,
  `fillText`, `getImageData`) is an external collaborator; the sprite
  produced for a word is therefore an input of the model
  (`Env.getSprite`).  The in-repo part of `rasterizeWordToMask` — the
  bounding-box scan and the crop/re-pad stage that runs on the binarized
  alpha mask — is embedded faithfully (`bboxScan`, `rasterCrop`).
* Presentational fields that never influence placement (font family /
  style / weight strings, colors, the unused `seed` option) are omitted
  from the records.
-/

/-- JavaScript `Math.round` on the values produced by the placer
(`Math.round(q)` = ⌊q + 1/2⌋ for every finite `q`). -/
def jsRound (q : ℚ) : Int := ⌊q + 1 / 2⌋

/-- A rasterized word sprite: `mask` has length `width * height`,
row-major, value `1` marking an ink pixel
(`spriteWordMask.js`, `WordSprite`). -/
structure Sprite where
  width : Nat
  height : Nat
  mask : List Nat
deriving DecidableEq, Repr, Inhabited

/-- The ink pixels of a sprite, in the row-major order in which
`canPlaceAt` / `stampOccupied` visit them (outer loop `yy`, inner loop
`xx`, skipping every pixel with mask value ≠ 1). -/
def inkPixels (s : Sprite) : List (Nat × Nat) :=
  (List.range s.height).flatMap fun yy =>
    ((List.range s.width).filter fun xx => s.mask.getD (yy * s.width + xx) 0 == 1).map
      fun xx => (xx, yy)

/-- Canvas indices covered by the ink pixels of a sprite whose top-left
corner is aligned at `(x, y)` (the index arithmetic of `canPlaceAt` and
`stampOccupied`: `cp = (y + yy) * canvasW + (x + xx)`). -/
def inkIdx (W : Nat) (s : Sprite) (x y : Int) : List Nat :=
  (inkPixels s).map fun q => (y.toNat + q.2) * W + (x.toNat + q.1)

/-- `insideCanvasRect` from `advancedSpiralPlacer.js`. -/
def insideCanvasRect (x y : Int) (w h W H : Nat) : Bool :=
  0 ≤ x && 0 ≤ y && x + w ≤ (W : Int) && y + h ≤ (H : Int)

/-- `canPlaceAt` from `advancedSpiralPlacer.js`: bounds check, then a
short-circuiting scan over the sprite's ink pixels checking the allowed
mask (when present) and the occupancy grid. -/
def canPlaceAt (s : Sprite) (x y : Int) (W H : Nat)
    (allowed : Option (List Nat)) (occ : List Nat) : Bool :=
  if x < 0 || y < 0 || x + s.width > (W : Int) || y + s.height > (H : Int) then false
  else
    (inkPixels s).all fun q =>
      let cp := (y.toNat + q.2) * W + (x.toNat + q.1)
      (match allowed with
        | some am => am.getD cp 0 == 1
        | none => true) && !(occ.getD cp 0 == 1)

/-- `stampOccupied` from `advancedSpiralPlacer.js`: every ink pixel of
the sprite is marked `1` in the occupancy grid. -/
def stampOccupied (s : Sprite) (x y : Int) (W : Nat) (occ : List Nat) : List Nat :=
  (inkPixels s).foldl (fun acc q => acc.set ((y.toNat + q.2) * W + (x.toNat + q.1)) 1) occ

/-- The external numeric/spatial environment of a placement run: the
trigonometric primitives, `Math.PI`, the sprite rasterizer (text, font
size, word padding ↦ sprite) and the `Math.random` pair drawn for the
start jitter of each word. -/
structure Env where
  cosF : ℚ → ℚ
  sinF : ℚ → ℚ
  piA : ℚ
  getSprite : String → ℚ → Nat → Sprite
  jitter : Nat → ℚ × ℚ

/-- The fixed angular step of the spiral search (`tStep = 0.03`). -/
def tStep : ℚ := 3 / 100

/-- The spiral search loop of `tryPlaceOne`:
`for (let t = 0; t <= maxT && tries < maxTries; t += tStep)`, testing the
Archimedean-spiral candidate `(round(cx + r·cos t − w/2),
round(cy + r·sin t − h/2))` with `r = spiralStep · t` and committing the
first one that passes `insideCanvasRect` and `canPlaceAt`.  The `fuel`
argument is the number of tries still available (`maxTries - tries`). -/
def tryLoop (env : Env) (s : Sprite) (W H : Nat) (cx cy spiralStep maxT : ℚ)
    (allowed : Option (List Nat)) (occ : List Nat) : ℚ → Nat → Option (Int × Int)
  | _, 0 => none
  | t, fuel + 1 =>
    if t ≤ maxT then
      let r := spiralStep * t
      let x := jsRound (cx + r * env.cosF t - (s.width : ℚ) / 2)
      let y := jsRound (cy + r * env.sinF t - (s.height : ℚ) / 2)
      if insideCanvasRect x y s.width s.height W H && canPlaceAt s x y W H allowed occ then
        some (x, y)
      else
        tryLoop env s W H cx cy spiralStep maxT allowed occ (t + tStep) fuel
    else none

/-- `tryPlaceOne` from `advancedSpiralPlacer.js`: quick size rejection,
spiral search, and on success the commit into the occupancy grid.
Returns the accepted top-left position (if any) together with the
updated occupancy grid. -/
def tryPlaceOne (env : Env) (s : Sprite) (W H : Nat) (cx cy : ℚ) (maxTries : Nat)
    (spiralStep maxT : ℚ) (allowed : Option (List Nat)) (occ : List Nat) :
    Option (Int × Int) × List Nat :=
  if s.width > W || s.height > H then (none, occ)
  else
    match tryLoop env s W H cx cy spiralStep maxT allowed occ 0 maxTries with
    | some (x, y) => (some (x, y), stampOccupied s x y W occ)
    | none => (none, occ)

/-- A word handed to the placer (`WordInput`); presentational fields
(weight, color) are omitted. -/
structure WordInput where
  text : String
  size : ℚ
deriving DecidableEq, Repr, Inhabited

/-- A committed placement (`Placement`).  `sprite` records the sprite
the word was collision-tested with (the JS record stores its dimensions
`w`, `h`; the sprite reference itself is kept here so the covered ink
pixels of a committed placement can be spoken about).  `originalIndex`
is `none` as produced by the placer; the adaptive renderer sets it
afterwards (`some i` for a real word, `some (-1)` for a duplicate). -/
structure Placement where
  text : String
  x : Int
  y : Int
  w : Nat
  h : Nat
  fontSize : ℚ
  sprite : Sprite
  originalIndex : Option Int
deriving DecidableEq, Repr

/-- The options record of `placeWordsAdvanced` (`PlaceOptions`), minus
presentational fields. -/
structure PlaceOpts where
  width : ℚ
  height : ℚ
  allowedMask : Option (List Nat)
  wordPadding : ℚ
  maxTriesPerWord : ℚ
  spiralStep : ℚ
  spiralTurns : ℚ
  startJitter : ℚ
  existingOccupiedMask : Option (List Nat)
  preferredLocation : Option (ℚ × ℚ × ℚ × ℚ)
deriving Inhabited

/-- `Math.max(1, Math.floor(opts.width))`. -/
def natWidth (opts : PlaceOpts) : Nat := (max 1 ⌊opts.width⌋).toNat

/-- `Math.max(1, Math.floor(opts.height))`. -/
def natHeight (opts : PlaceOpts) : Nat := (max 1 ⌊opts.height⌋).toNat

/-- Coverage statistics (`calculateCoverage` result). -/
structure Coverage where
  covFrac : ℚ
  allowedArea : Nat
  occupiedArea : Nat
deriving DecidableEq, Repr

/-- `calculateCoverage` from `advancedSpiralPlacer.js`. -/
def calculateCoverage (occupiedMask : List Nat) (allowedMask : Option (List Nat))
    (width height : Nat) : Coverage :=
  match allowedMask with
  | some am =>
    let allowedArea := ((List.range am.length).filter fun i => am.getD i 0 == 1).length
    let occupiedArea :=
      ((List.range am.length).filter fun i =>
        am.getD i 0 == 1 && occupiedMask.getD i 0 == 1).length
    { covFrac := if 0 < allowedArea then (occupiedArea : ℚ) / (allowedArea : ℚ) else 0,
      allowedArea := allowedArea, occupiedArea := occupiedArea }
  | none =>
    let allowedArea := width * height
    let occupiedArea :=
      ((List.range occupiedMask.length).filter fun i => occupiedMask.getD i 0 == 1).length
    { covFrac := if 0 < allowedArea then (occupiedArea : ℚ) / (allowedArea : ℚ) else 0,
      allowedArea := allowedArea, occupiedArea := occupiedArea }

/-- The result of a placement run (`placements`, `occupiedMask` and the
flattened `stats`). -/
structure PlaceResult where
  placements : List Placement
  occupiedMask : List Nat
  placedCount : Nat
  totalCount : Nat
  covFrac : ℚ
  allowedArea : Nat
  occupiedArea : Nat
deriving DecidableEq, Repr

/-- The starting occupancy grid of a placement run: a copy of the
caller-supplied `existingOccupiedMask` when present
(`new Uint8Array(opts.existingOccupiedMask)`), otherwise a fresh zero
grid (`new Uint8Array(width * height)`). -/
def seedMask (opts : PlaceOpts) : List Nat :=
  match opts.existingOccupiedMask with
  | some m => m
  | none => List.replicate (natWidth opts * natHeight opts) 0

/-- The per-word body of the placement loop of `placeWordsAdvanced`
(size clamping `Math.max(1, Number(w.size || 1))`, sprite lookup, start
jitter, `tryPlaceOne`, and, on success, recording the placement). -/
def placeStep (env : Env) (W H : Nat) (allowed : Option (List Nat)) (cx cy startJitter : ℚ)
    (maxTries : Nat) (spiralStep maxT : ℚ) (wordPadding : Nat)
    (st : List Placement × List Nat) (iw : Nat × WordInput) :
    List Placement × List Nat :=
  let w := iw.2
  let size : ℚ := max 1 (if w.size = 0 then 1 else w.size)
  let sprite := env.getSprite w.text size wordPadding
  let j := env.jitter iw.1
  let jx := (j.1 * 2 - 1) * startJitter
  let jy := (j.2 * 2 - 1) * startJitter
  match tryPlaceOne env sprite W H (cx + jx) (cy + jy) maxTries spiralStep maxT allowed st.2 with
  | (some (x, y), occ2) =>
    (st.1 ++
      [{ text := w.text, x := x, y := y, w := sprite.width, h := sprite.height,
         fontSize := size, sprite := sprite, originalIndex := none }], occ2)
  | (none, occ2) => (st.1, occ2)

/-- The spiral start center of a placement run: the center of the
preferred location when supplied, otherwise the canvas center. -/
def coreCenter (opts : PlaceOpts) : ℚ × ℚ :=
  match opts.preferredLocation with
  | some (px, py, pw, ph) => (px + pw / 2, py + ph / 2)
  | none => ((natWidth opts : ℚ) / 2, (natHeight opts : ℚ) / 2)

/-- The per-word placement loop of `placeWordsAdvanced` with the
clamped options (`wordPadding ≥ 0`, `maxTriesPerWord ≥ 50`,
`spiralStep ≥ 0.5`, `spiralTurns ≥ 1`, `startJitter ≥ 0`,
`maxT = spiralTurns * π * 2`), starting from the seed occupancy grid. -/
def coreFold (env : Env) (words : List WordInput) (opts : PlaceOpts) :
    List Placement × List Nat :=
  words.enum.foldl
    (placeStep env (natWidth opts) (natHeight opts) opts.allowedMask
      (coreCenter opts).1 (coreCenter opts).2 (max 0 opts.startJitter)
      (max 50 ⌊opts.maxTriesPerWord⌋).toNat (max (1 / 2) opts.spiralStep)
      (max 1 opts.spiralTurns * env.piA * 2) (max 0 ⌊opts.wordPadding⌋).toNat)
    ([], seedMask opts)

/-- The body of `placeWordsAdvanced` after its `allowedMask` validation:
option clamping, occupancy-grid initialisation (copy of
`existingOccupiedMask` or a fresh zero grid), center / preferred-location
start, the per-word loop and the final statistics. -/
def placeWordsCore (env : Env) (words : List WordInput) (opts : PlaceOpts) : PlaceResult :=
  let res := coreFold env words opts
  let cov := calculateCoverage res.2 opts.allowedMask (natWidth opts) (natHeight opts)
  { placements := res.1, occupiedMask := res.2, placedCount := res.1.length,
    totalCount := words.length, covFrac := cov.covFrac,
    allowedArea := cov.allowedArea, occupiedArea := cov.occupiedArea }

/-- `placeWordsAdvanced` from `advancedSpiralPlacer.js`: the
`allowedMask` length validation (which throws before any sprite is
rasterized or any placement attempted), then the placement run. -/
def placeWordsAdvanced (env : Env) (words : List WordInput) (opts : PlaceOpts) :
    Except String PlaceResult :=
  let W := natWidth opts
  let H := natHeight opts
  match opts.allowedMask with
  | some am =>
    if am.length ≠ W * H then
      .error ("allowedMask length mismatch: expected " ++ toString (W * H) ++ ", got " ++
        toString am.length)
    else .ok (placeWordsCore env words opts)
  | none => .ok (placeWordsCore env words opts)

/-- The closed integer interval `[lo, hi]` as a list (the iteration
space of the neighbourhood loops of `morphMask`). -/
def intRange (lo hi : Int) : List Int :=
  (List.range (hi + 1 - lo).toNat).map fun k : Nat => lo + (k : Int)

/-- The morphology operation selector of `morphMask`. -/
inductive MorphOp where
  | dilate
  | erode
deriving DecidableEq, Repr

/-- The per-pixel erosion scan of `morphMask`: early exit on a zero
center, then the diamond (Manhattan radius) neighbourhood scan in which
any out-of-canvas or zero neighbour makes the pixel erode to `0`. -/
def erodeAt (mask : List Nat) (width height x y r : Nat) : Bool :=
  if mask.getD (y * width + x) 0 == 0 then false
  else
    (intRange (-(r : Int)) r).all fun dy =>
      let yy : Int := (y : Int) + dy
      if yy < 0 || yy ≥ (height : Int) then false
      else
        let rem : Int := (r : Int) - |dy|
        (intRange ((x : Int) - rem) ((x : Int) + rem)).all fun xx =>
          if xx < 0 || xx ≥ (width : Int) then false
          else !(mask.getD (yy.toNat * width + xx.toNat) 0 == 0)

/-- The per-pixel dilation scan of `morphMask`: early exit on a one
center, then the diamond neighbourhood scan in which any in-canvas
neighbour equal to `1` makes the pixel `1`; out-of-canvas positions are
skipped. -/
def dilateAt (mask : List Nat) (width height x y r : Nat) : Bool :=
  if mask.getD (y * width + x) 0 == 1 then true
  else
    (intRange (-(r : Int)) r).any fun dy =>
      let yy : Int := (y : Int) + dy
      if yy < 0 || yy ≥ (height : Int) then false
      else
        let rem : Int := (r : Int) - |dy|
        (intRange ((x : Int) - rem) ((x : Int) + rem)).any fun xx =>
          if xx < 0 || xx ≥ (width : Int) then false
          else mask.getD (yy.toNat * width + xx.toNat) 0 == 1

/-- `morphMask` from `maskUtils.js`: `r = Math.max(0, Math.floor(radius))`,
identity (a copy) for `r = 0`, otherwise the per-pixel diamond scan over
the whole canvas. -/
def morphMask (mask : List Nat) (width height : Nat) (radius : ℚ) (op : MorphOp) :
    List Nat :=
  let r := (max 0 ⌊radius⌋).toNat
  if r = 0 then mask
  else
    (List.range (width * height)).map fun p =>
      let x := p % width
      let y := p / width
      match op with
      | .erode => if erodeAt mask width height x y r then 1 else 0
      | .dilate => if dilateAt mask width height x y r then 1 else 0

/-- The `shapePadding` dispatch shared by `createBuiltInShapeMask` and
`loadImageMask`: positive padding erodes by that radius, negative
padding dilates by its absolute value, zero leaves the mask unchanged.
`shapePadding` is already floored to an integer by the callers. -/
def applyShapePadding (mask : List Nat) (width height : Nat) (shapePadding : Int) :
    List Nat :=
  if shapePadding ≠ 0 then
    if shapePadding > 0 then morphMask mask width height (shapePadding : ℚ) .erode
    else morphMask mask width height ((-shapePadding : Int) : ℚ) .dilate
  else mask

/-- JS `clamp(v, lo, hi) = Math.max(lo, Math.min(hi, v))` from
`spriteWordMask.js`. -/
def clampI (v lo hi : Int) : Int := max lo (min hi v)

/-- The ink bounding-box scan of `rasterizeWordToMask`: row-major scan
of the binarized mask updating `(x0, y0, x1, y1)` from the initial
sentinel `(W, H, -1, -1)`. -/
def bboxScan (mask : List Nat) (W H : Nat) : Nat × Nat × Int × Int :=
  (List.range H).foldl
    (fun st y =>
      (List.range W).foldl
        (fun st2 x =>
          if mask.getD (y * W + x) 0 == 1 then
            (min st2.1 x, min st2.2.1 y, max st2.2.2.1 (x : Int), max st2.2.2.2 (y : Int))
          else st2)
        st)
    (W, H, (-1 : Int), (-1 : Int))

/-- The crop/re-pad stage of `rasterizeWordToMask` (the part of the
sprite rasterizer that runs on the in-repo binarized mask): degenerate
`(0,0,0,0)` bounding box when no ink pixel was found, crop window
clamped to the canvas, and the row-wise copy into the cropped sprite.
`padding` is the already-normalised integer pixel padding (`padPx`). -/
def rasterCrop (W H : Nat) (mask : List Nat) (padding : Nat) : Sprite :=
  let b := bboxScan mask W H
  let t : Nat × Nat × Nat × Nat :=
    if b.2.2.1 < 0 then (0, 0, 0, 0) else (b.1, b.2.1, b.2.2.1.toNat, b.2.2.2.toNat)
  let padPx : Int := padding
  let cropX0 := clampI ((t.1 : Int) - padPx) 0 ((W : Int) - 1)
  let cropY0 := clampI ((t.2.1 : Int) - padPx) 0 ((H : Int) - 1)
  let cropX1 := clampI ((t.2.2.1 : Int) + padPx) 0 ((W : Int) - 1)
  let cropY1 := clampI ((t.2.2.2 : Int) + padPx) 0 ((H : Int) - 1)
  let CW := (cropX1 - cropX0 + 1).toNat
  let CH := (cropY1 - cropY0 + 1).toNat
  let cropped :=
    (List.range CH).flatMap fun yy =>
      (List.range CW).map fun xx =>
        mask.getD ((cropY0.toNat + yy) * W + (cropX0.toNat + xx)) 0
  { width := CW, height := CH, mask := cropped }

/-- `getWordSprite`'s padding normalisation
(`Math.max(0, Math.floor(params.padding))`) composed with the crop
stage, for a word whose binarized rasterization is `mask` on a `W × H`
sprite canvas. -/
def getWordSpriteCrop (W H : Nat) (mask : List Nat) (padding : ℚ) : Sprite :=
  rasterCrop W H mask (max 0 ⌊padding⌋).toNat

/-- The external environment of an adaptive render
(`renderSpiralAdvanced.js`): the shared numeric primitives and sprite
rasterizer plus one `Math.random` stream per call site — the start
jitters of the shrink-retry attempts, of the force-sub-pass attempts and
of the duplicate-fill attempts (index = attempt counter), the
`Math.pow` primitive used by the nonlinear size compression, and the
random pick of the word duplicated by each fill iteration. -/
structure RenderCtx where
  cosF : ℚ → ℚ
  sinF : ℚ → ℚ
  piA : ℚ
  getSprite : String → ℚ → Nat → Sprite
  powF : ℚ → ℚ → ℚ
  shrinkJitter : Nat → Nat → ℚ × ℚ
  forceJitter : Nat → Nat → ℚ × ℚ
  fillJitter : Nat → ℚ × ℚ
  fillPick : Nat → Nat
  width : ℚ
  height : ℚ
  allowedMask : List Nat
  wordPadding : ℚ
  targetCoverage : ℚ
  nonlinearPower : ℚ

/-- The placer environment for one inner `placeWordsAdvanced` call of
the renderer, with the given `Math.random` jitter pair. -/
def RenderCtx.envWith (ctx : RenderCtx) (j : ℚ × ℚ) : Env :=
  { cosF := ctx.cosF, sinF := ctx.sinF, piA := ctx.piA, getSprite := ctx.getSprite,
    jitter := fun _ => j }

/-- The canvas width used by the renderer's own grids
(`new Uint8Array(width * height)`). -/
def RenderCtx.W (ctx : RenderCtx) : Nat := (max 1 ⌊ctx.width⌋).toNat

/-- The canvas height used by the renderer's own grids. -/
def RenderCtx.H (ctx : RenderCtx) : Nat := (max 1 ⌊ctx.height⌋).toNat

/-- Options of the Phase-1 shrink-retry `placeWordsAdvanced` calls
(`maxTriesPerWord: 15000, spiralStep: 0.5, spiralTurns: 250,
startJitter: 4`). -/
def phase1Opts (ctx : RenderCtx) (occ : List Nat) : PlaceOpts :=
  { width := ctx.width, height := ctx.height, allowedMask := some ctx.allowedMask,
    wordPadding := ctx.wordPadding, maxTriesPerWord := 15000, spiralStep := 1 / 2,
    spiralTurns := 250, startJitter := 4, existingOccupiedMask := some occ,
    preferredLocation := none }

/-- Options of the force sub-pass calls (`wordPadding - 1` clamped at 0,
`maxTriesPerWord: 25000, spiralStep: 0.2, spiralTurns: 400,
startJitter: 8`). -/
def forceOpts (ctx : RenderCtx) (occ : List Nat) : PlaceOpts :=
  { width := ctx.width, height := ctx.height, allowedMask := some ctx.allowedMask,
    wordPadding := max 0 (ctx.wordPadding - 1), maxTriesPerWord := 25000,
    spiralStep := 1 / 5, spiralTurns := 400, startJitter := 8,
    existingOccupiedMask := some occ, preferredLocation := none }

/-- Options of the duplicate-fill calls (`maxTriesPerWord: 5000,
spiralStep: 0.5, spiralTurns: 100, startJitter: 2`). -/
def fillOpts (ctx : RenderCtx) (occ : List Nat) : PlaceOpts :=
  { width := ctx.width, height := ctx.height, allowedMask := some ctx.allowedMask,
    wordPadding := ctx.wordPadding, maxTriesPerWord := 5000, spiralStep := 1 / 2,
    spiralTurns := 100, startJitter := 2, existingOccupiedMask := some occ,
    preferredLocation := none }

/-- The renderer's occupancy-merge loop
(`for j: if (result.occupiedMask[j] === 1) occupiedMask[j] = 1`). -/
def orMask (a b : List Nat) : List Nat :=
  (List.range a.length).map fun j => if b.getD j 0 == 1 then 1 else a.getD j 0

/-- The nonlinear size compression of Phase 1: map the word's nominal
size into the compressed band
`minSize + (normalized ^ nonlinearPower) * sizeRange` and rescale
proportionally to the current attempt size; disabled when the size range
is not positive or the power is exactly 1. -/
def nonlinearScale (ctx : RenderCtx) (minSize sizeRange wordSize attemptSize : ℚ) : ℚ :=
  if 0 < sizeRange ∧ ctx.nonlinearPower ≠ 1 then
    let normalized := (wordSize - minSize) / sizeRange
    let compressed := ctx.powF normalized ctx.nonlinearPower
    (minSize + compressed * sizeRange) * (attemptSize / wordSize)
  else attemptSize

/-- One shrink-retry attempt of Phase 1 for word `word` (index `i`,
attempt counter `k`, current occupancy `occ`): place the word at
`Math.max(4, Math.floor(scaledSize))`, and on success return the
recorded placement (with `originalIndex = i`) and the merged occupancy
grid. -/
def shrinkAttempt (ctx : RenderCtx) (minSize sizeRange : ℚ) (word : WordInput) (i : Nat)
    (occ : List Nat) (k : Nat) (s : ℚ) : Option (Placement × List Nat) :=
  let scaled := nonlinearScale ctx minSize sizeRange word.size s
  let sized : WordInput := { word with size := max 4 ((⌊scaled⌋ : Int) : ℚ) }
  let r := placeWordsCore (ctx.envWith (ctx.shrinkJitter i k)) [sized] (phase1Opts ctx occ)
  match r.placements with
  | [] => none
  | p :: _ => some ({ p with originalIndex := some (i : Int) }, orMask occ r.occupiedMask)

/-- One force-sub-pass attempt for word `word` at force size `fs`. -/
def forceAttempt (ctx : RenderCtx) (word : WordInput) (i : Nat) (occ : List Nat)
    (k : Nat) (fs : ℚ) : Option (Placement × List Nat) :=
  let minWord : WordInput := { word with size := fs }
  let r := placeWordsCore (ctx.envWith (ctx.forceJitter i k)) [minWord] (forceOpts ctx occ)
  match r.placements with
  | [] => none
  | p :: _ => some ({ p with originalIndex := some (i : Int) }, orMask occ r.occupiedMask)

/-- The shrink-retry loop of Phase 1
(`while (!placed && attemptSize >= minAttemptSize) { ...; attemptSize *= 0.7 }`
with `minAttemptSize = 4`), as a fuel recursion; `k` counts the attempts
made so far (it indexes the jitter stream).  `shrinkFuel` below always
supplies enough fuel for the guard `attemptSize < 4` to be reached, so
the fuel never truncates the loop (`shrinkLoopAux_fuel_stable`). -/
def shrinkLoopAux {A : Type} (att : Nat → ℚ → Option A) : Nat → Nat → ℚ → Option A
  | 0, _, _ => none
  | fuel + 1, k, s =>
    if 4 ≤ s then
      match att k s with
      | some a => some a
      | none => shrinkLoopAux att fuel (k + 1) (s * (7 / 10))
    else none

/-- Fuel that always suffices for the shrink-retry loop. -/
def shrinkFuel (s : ℚ) : Nat := ⌈s⌉.toNat + 1

/-- The shrink-retry loop of Phase 1, starting from the word's nominal
size. -/
def shrinkLoop {A : Type} (att : Nat → ℚ → Option A) (s : ℚ) : Option A :=
  shrinkLoopAux att (shrinkFuel s) 0 s

/-- The force sub-pass
(`for (forceAttempt = 0; forceAttempt < 10 && !forcePlaced; ...)`,
shrinking `forceSize` by `Math.max(2, Math.floor(forceSize * 0.8))` on
failure), as a recursion on the remaining attempt budget. -/
def forceLoopAux {A : Type} (att : Nat → ℚ → Option A) : Nat → Nat → ℚ → Option A
  | 0, _, _ => none
  | fuel + 1, k, fs =>
    match att k fs with
    | some a => some a
    | none => forceLoopAux att fuel (k + 1) (max 2 ((⌊fs * (8 / 10)⌋ : Int) : ℚ))

/-- The per-word body of the Phase-1 loop: shrink-retry from the
nominal size, then (if unplaced) the force sub-pass from size 4; an
unplaced word leaves the state unchanged (the word is skipped). -/
def phase1Step (ctx : RenderCtx) (minSize sizeRange : ℚ)
    (st : List Placement × List Nat) (iw : Nat × WordInput) :
    List Placement × List Nat :=
  match shrinkLoop (shrinkAttempt ctx minSize sizeRange iw.2 iw.1 st.2) iw.2.size with
  | some (p, occ2) => (st.1 ++ [p], occ2)
  | none =>
    match forceLoopAux (forceAttempt ctx iw.2 iw.1 st.2) 10 0 4 with
    | some (p, occ2) => (st.1 ++ [p], occ2)
    | none => st

/-- Phase 1 of the adaptive renderer: size-range statistics for the
nonlinear compression, a fresh zero occupancy grid, then the per-word
shrink-retry / force loop over the sorted word list. -/
def phase1 (ctx : RenderCtx) (sorted : List WordInput) : List Placement × List Nat :=
  let sizes := (sorted.map (fun w => w.size)).filter fun s => 0 < s
  let minSize : ℚ :=
    match sizes with
    | [] => 0
    | s :: rest => rest.foldl min s
  let maxSize : ℚ :=
    match sizes with
    | [] => 0
    | s :: rest => rest.foldl max s
  let sizeRange := maxSize - minSize
  sorted.enum.foldl (phase1Step ctx minSize sizeRange)
    ([], List.replicate (ctx.W * ctx.H) 0)

/-- A free rectangle found by `findWidestAvailableSpace`. -/
structure SpaceRect where
  x : Nat
  y : Nat
  width : Nat
  height : Nat
deriving DecidableEq, Repr

/-- Whether a canvas cell is free (allowed and not occupied) in the
sense of `findWidestAvailableSpace`. -/
def cellFree (occupiedMask : List Nat) (allowedMask : Option (List Nat)) (idx : Nat) :
    Bool :=
  (match allowedMask with
    | some am => am.getD idx 0 == 1
    | none => true) && !(occupiedMask.getD idx 0 == 1)

/-- The row scan of `findWidestAvailableSpace`: state is
`(widestWidth, bestSpace, currentGap)` where `currentGap` is
`some (gapStart, gapWidth)` while inside a gap.  A gap is recorded only
when strictly wider than the best so far. -/
def rowScanStep (y : Nat) (st : Nat × Option SpaceRect × Option (Nat × Nat))
    (x : Nat) (free : Bool) : Nat × Option SpaceRect × Option (Nat × Nat) :=
  if free then
    match st.2.2 with
    | none => (st.1, st.2.1, some (x, 1))
    | some g => (st.1, st.2.1, some (g.1, g.2 + 1))
  else
    match st.2.2 with
    | none => (st.1, st.2.1, none)
    | some g =>
      if st.1 < g.2 then
        (g.2, some { x := g.1, y := y, width := g.2, height := 1 }, none)
      else (st.1, st.2.1, none)

/-- Close the gap still open at the end of a row (the "final gap"
check). -/
def rowScanFlush (y : Nat) (st : Nat × Option SpaceRect × Option (Nat × Nat)) :
    Nat × Option SpaceRect :=
  match st.2.2 with
  | none => (st.1, st.2.1)
  | some g =>
    if st.1 < g.2 then (g.2, some { x := g.1, y := y, width := g.2, height := 1 })
    else (st.1, st.2.1)

/-- Scan one row of the canvas for its widest free gap, updating
`(widestWidth, bestSpace)`. -/
def rowScan (occupiedMask : List Nat) (allowedMask : Option (List Nat)) (width : Nat)
    (st : Nat × Option SpaceRect) (y : Nat) : Nat × Option SpaceRect :=
  rowScanFlush y
    ((List.range width).foldl
      (fun st2 x => rowScanStep y st2 x (cellFree occupiedMask allowedMask (y * width + x)))
      (st.1, st.2, none))

/-- Whether rows `y .. y + h - 1` of the candidate rectangle are fully
free over `[x, x + w)` (the validity check of the vertical-extension
loop). -/
def rowsValid (occupiedMask : List Nat) (allowedMask : Option (List Nat))
    (width height x y w h : Nat) : Bool :=
  (List.range h).all fun dy =>
    let rowY := y + dy
    if height ≤ rowY then false
    else (List.range w).all fun dx => cellFree occupiedMask allowedMask (rowY * width + (x + dx))

/-- The vertical-extension loop: try heights `2, 3, ...` up to
`height - bestSpace.y` while every row stays free, keeping the last
valid height (initially 1). -/
def vertExtendAux (check : Nat → Bool) (hMax : Nat) : Nat → Nat → Nat → Nat
  | 0, _, best => best
  | fuel + 1, h, best =>
    if hMax < h then best
    else if check h then vertExtendAux check hMax fuel (h + 1) h
    else best

/-- `findWidestAvailableSpace` from `renderSpiralAdvanced.js`: the widest
horizontal free gap over all rows, then extended vertically while every
added row is fully free. -/
def findWidestAvailableSpace (occupiedMask : List Nat) (allowedMask : Option (List Nat))
    (width height : Nat) : Option SpaceRect :=
  let scan := (List.range height).foldl (rowScan occupiedMask allowedMask width) (0, none)
  match scan.2 with
  | none => none
  | some sp =>
    let hMax := height - sp.y
    let maxHeight :=
      vertExtendAux (fun h => rowsValid occupiedMask allowedMask width height sp.x sp.y sp.width h)
        hMax (hMax + 2) 2 1
    some { sp with height := maxHeight }

/-- One duplicate-fill iteration body plus the loop
(`while (coverage < targetCoverage && duplicateCount < maxDuplicates)`):
pick a random low-weight word, find the widest free rectangle, bail out
if it is narrower than 6 px, size the duplicate to roughly fit the
rectangle width (`Math.max(4, Math.floor(width / (textLength * 0.6)))`),
attempt one placement seeded with the current occupancy, and on success
record the duplicate (`originalIndex = -1`), merge the occupancy and
recompute the coverage.  Any failure breaks the loop. -/
def fillLoop (ctx : RenderCtx) (smallWords : List WordInput) :
    Nat → Nat → List Placement → List Nat → ℚ → List Placement × List Nat
  | 0, _, ps, occ, _ => (ps, occ)
  | fuel + 1, k, ps, occ, cov =>
    if cov < ctx.targetCoverage then
      let wd := smallWords.getD (ctx.fillPick k) { text := "", size := 0 }
      match findWidestAvailableSpace occ (some ctx.allowedMask) ctx.W ctx.H with
      | none => (ps, occ)
      | some sp =>
        if sp.width < 6 then (ps, occ)
        else
          let textLength := wd.text.length
          let optimalSize : ℚ :=
            max 4 ((⌊(sp.width : ℚ) / ((textLength : ℚ) * (6 / 10))⌋ : Int) : ℚ)
          let r :=
            placeWordsCore (ctx.envWith (ctx.fillJitter k)) [{ wd with size := optimalSize }]
              (fillOpts ctx occ)
          match r.placements with
          | [] => (ps, occ)
          | p :: _ =>
            let occ2 := orMask occ r.occupiedMask
            fillLoop ctx smallWords fuel (k + 1)
              (ps ++ [{ p with originalIndex := some (-1 : Int) }]) occ2
              (calculateCoverage occ2 (some ctx.allowedMask) ctx.W ctx.H).covFrac
    else (ps, occ)

/-- The duplicate-fill phase (Phase 3 of the renderer): if the coverage
after Phase 1 is below target, run the fill loop over the bottom-40%
word tail with a duplicate budget of `min 400 (sorted.length * 8)`. -/
def fillPhase (ctx : RenderCtx) (sorted : List WordInput) (ps : List Placement)
    (occ : List Nat) : List Placement × List Nat :=
  let cov0 := (calculateCoverage occ (some ctx.allowedMask) ctx.W ctx.H).covFrac
  if cov0 < ctx.targetCoverage then
    let smallWords := sorted.drop (⌊(sorted.length : ℚ) * (6 / 10)⌋).toNat
    let maxDup := min 400 (sorted.length * 8)
    fillLoop ctx smallWords maxDup 0 ps occ cov0
  else (ps, occ)

/-- The word normalisation of `renderSpiralAdvanced.js`: drop words with
empty text or non-positive size, sort by size descending (stable). -/
def normalizeWords (words : List WordInput) : List WordInput :=
  ((words.filter fun d => !(d.text == "") && decide (0 < d.size)).mergeSort
    fun a b => b.size ≤ a.size)

/-- The adaptive placement pipeline of `renderSpiralAdvanced.js` with
`adaptiveFontSize` enabled: normalise and sort the words, run Phase 1
(guaranteed-placement attempt), then the duplicate-fill phase; returns
the final placement list. -/
def renderAdaptive (ctx : RenderCtx) (words : List WordInput) : List Placement :=
  let sorted := normalizeWords words
  let r1 := phase1 ctx sorted
  (fillPhase ctx sorted r1.1 r1.2).1

/-- One per-word step of the heap-level placement run: the word loop
reads the run's own occupancy array (heap slot `fresh`), runs the
per-word placement body on its value, and writes the updated value back
through `fresh` — never through any other reference. -/
def heapStep (env : Env) (W H : Nat) (allowed : Option (List Nat)) (cx cy sj : ℚ)
    (mt : Nat) (ss mT : ℚ) (wp : Nat) (fresh : Nat)
    (st : List (List Nat) × List Placement) (iw : Nat × WordInput) :
    List (List Nat) × List Placement :=
  let r := placeStep env W H allowed cx cy sj mt ss mT wp (st.2, st.1.getD fresh []) iw
  (st.1.set fresh r.2, r.1)

/-- Heap-level model of `placeWordsAdvanced` called with a
caller-supplied `existingOccupiedMask`, making the JS array mutations
explicit: the heap is a list of `Uint8Array` values and `ref` is the
index of the caller's array.  Line 156–158 of
`advancedSpiralPlacer.js` (`new Uint8Array(opts.existingOccupiedMask)`)
copies the caller's array into a fresh slot `fresh = h.length`; every
occupancy commit of the run then writes through `fresh` (the local
`occupiedMask` binding), never through `ref`.  Returns the final heap,
the reference of the run's occupancy grid and the placements. -/
def placeWordsHeap (env : Env) (words : List WordInput) (opts : PlaceOpts)
    (h : List (List Nat)) (ref : Nat) : List (List Nat) × Nat × List Placement :=
  let W := natWidth opts
  let H := natHeight opts
  let wordPadding := (max 0 ⌊opts.wordPadding⌋).toNat
  let maxTries := (max 50 ⌊opts.maxTriesPerWord⌋).toNat
  let spiralStep : ℚ := max (1 / 2) opts.spiralStep
  let spiralTurns : ℚ := max 1 opts.spiralTurns
  let startJitter : ℚ := max 0 opts.startJitter
  let c : ℚ × ℚ :=
    match opts.preferredLocation with
    | some (px, py, pw, ph) => (px + pw / 2, py + ph / 2)
    | none => ((W : ℚ) / 2, (H : ℚ) / 2)
  let maxT := spiralTurns * env.piA * 2
  let fresh := h.length
  let h1 := h ++ [h.getD ref []]
  let res :=
    words.enum.foldl
      (heapStep env W H opts.allowedMask c.1 c.2 startJitter maxTries spiralStep maxT
        wordPadding fresh)
      (h1, [])
  (res.1, fresh, res.2)

/-! ## Basic grid lemmas -/

/-- `List.set` seen through default-0 reads: it changes exactly the
written in-range cell. -/
theorem getD_set (occ : List Nat) (i j v : Nat) :
    (occ.set i v).getD j 0 = if i = j ∧ j < occ.length then v else occ.getD j 0 := by
  rcases eq_or_ne i j with rfl | hne
  · by_cases hj : i < occ.length
    · simp [List.getD_eq_getElem?_getD, List.getElem?_set_self hj, hj]
    · rw [List.set_eq_of_length_le (le_of_not_lt hj)]
      simp [hj]
  · simp [List.getD_eq_getElem?_getD, List.getElem?_set_ne hne, hne]

/-- Folding `set · 1` over a list of indices preserves the length. -/
theorem foldSet_length (l : List Nat) (occ : List Nat) :
    (l.foldl (fun a i => a.set i 1) occ).length = occ.length := by
  induction l generalizing occ with
  | nil => rfl
  | cons i l ih => simp [List.foldl_cons, ih]

/-- Folding `set · 1` over a list of indices: a cell reads `1` exactly
when it was written (in range) or already read `1`. -/
theorem foldSet_getD (l : List Nat) (occ : List Nat) (j : Nat) :
    (l.foldl (fun a i => a.set i 1) occ).getD j 0 =
      if j ∈ l ∧ j < occ.length then 1 else occ.getD j 0 := by
  induction l generalizing occ with
  | nil => simp
  | cons i l ih =>
    rw [List.foldl_cons, ih, getD_set, List.length_set]
    by_cases hjl : j ∈ l <;> by_cases hj : j < occ.length
    · simp [hjl, hj]
    · simp [hjl, hj]
    · rcases eq_or_ne i j with rfl | hne
      · simp [hjl, hj]
      · simp [hjl, hj, hne, Ne.symm hne]
    · simp [hjl, hj]

/-- Membership in the ink-pixel list of a sprite. -/
theorem mem_inkPixels {s : Sprite} {q : Nat × Nat} :
    q ∈ inkPixels s ↔
      q.1 < s.width ∧ q.2 < s.height ∧ s.mask.getD (q.2 * s.width + q.1) 0 = 1 := by
  obtain ⟨xx, yy⟩ := q
  simp only [inkPixels, List.mem_flatMap, List.mem_map, List.mem_filter, List.mem_range]
  constructor
  · rintro ⟨yy', hyy', xx', ⟨hxx', hmask⟩, h⟩
    obtain ⟨rfl, rfl⟩ : xx' = xx ∧ yy' = yy := by
      exact ⟨congrArg Prod.fst h, congrArg Prod.snd h⟩
    exact ⟨hxx', hyy', by simpa using hmask⟩
  · rintro ⟨hx, hy, hm⟩
    exact ⟨yy, hy, xx, ⟨hx, by simpa using hm⟩, rfl⟩

/-- Membership in the covered-canvas-index list of a placed sprite. -/
theorem mem_inkIdx {W : Nat} {s : Sprite} {x y : Int} {j : Nat} :
    j ∈ inkIdx W s x y ↔
      ∃ q ∈ inkPixels s, j = (y.toNat + q.2) * W + (x.toNat + q.1) := by
  simp [inkIdx, List.mem_map, eq_comm]

/-- `stampOccupied` is the index-wise fold of `set · 1` over the covered
canvas indices. -/
theorem stampOccupied_eq_fold (s : Sprite) (x y : Int) (W : Nat) (occ : List Nat) :
    stampOccupied s x y W occ = (inkIdx W s x y).foldl (fun a i => a.set i 1) occ := by
  rw [inkIdx, List.foldl_map]
  rfl

/-- `stampOccupied` preserves the grid length. -/
theorem stampOccupied_length (s : Sprite) (x y : Int) (W : Nat) (occ : List Nat) :
    (stampOccupied s x y W occ).length = occ.length := by
  rw [stampOccupied_eq_fold]
  exact foldSet_length _ _

/-- Cell-wise description of `stampOccupied`. -/
theorem stampOccupied_getD (s : Sprite) (x y : Int) (W : Nat) (occ : List Nat) (j : Nat) :
    (stampOccupied s x y W occ).getD j 0 =
      if j ∈ inkIdx W s x y ∧ j < occ.length then 1 else occ.getD j 0 := by
  rw [stampOccupied_eq_fold]
  exact foldSet_getD _ _ _

/-- `stampOccupied` only ever sets cells to `1`: a cell reading `1`
keeps reading `1`. -/
theorem stampOccupied_mono (s : Sprite) (x y : Int) (W : Nat) (occ : List Nat) (j : Nat)
    (h : occ.getD j 0 = 1) : (stampOccupied s x y W occ).getD j 0 = 1 := by
  rw [stampOccupied_getD]
  split
  · rfl
  · exact h

/-- A covered index written by `stampOccupied` reads `1` afterwards. -/
theorem stampOccupied_covers (s : Sprite) (x y : Int) (W : Nat) (occ : List Nat) (j : Nat)
    (hj : j ∈ inkIdx W s x y) (hlt : j < occ.length) :
    (stampOccupied s x y W occ).getD j 0 = 1 := by
  rw [stampOccupied_getD]
  simp [hj, hlt]

/-! ## Soundness of the collision test -/

/-- A successful `canPlaceAt` implies the sprite footprint lies inside
the canvas. -/
theorem canPlaceAt_bounds {s : Sprite} {x y : Int} {W H : Nat}
    {allowed : Option (List Nat)} {occ : List Nat}
    (hc : canPlaceAt s x y W H allowed occ = true) :
    0 ≤ x ∧ 0 ≤ y ∧ x + s.width ≤ (W : Int) ∧ y + s.height ≤ (H : Int) := by
  rw [canPlaceAt] at hc
  split at hc
  · simp at hc
  · rename_i hcond
    simp only [Bool.or_eq_true, decide_eq_true_eq, not_or] at hcond
    omega

/-- A successful `canPlaceAt` implies every ink pixel of the sprite maps
to an allowed (when a mask is supplied) and unoccupied canvas cell. -/
theorem canPlaceAt_pix {s : Sprite} {x y : Int} {W H : Nat}
    {allowed : Option (List Nat)} {occ : List Nat}
    (hc : canPlaceAt s x y W H allowed occ = true)
    {q : Nat × Nat} (hq : q ∈ inkPixels s) :
    (∀ am, allowed = some am → am.getD ((y.toNat + q.2) * W + (x.toNat + q.1)) 0 = 1) ∧
      occ.getD ((y.toNat + q.2) * W + (x.toNat + q.1)) 0 ≠ 1 := by
  rw [canPlaceAt] at hc
  split at hc
  · simp at hc
  · rw [List.all_eq_true] at hc
    have h2 := hc q hq
    simp only [Bool.and_eq_true, Bool.not_eq_true', beq_iff_eq, beq_eq_false_iff_ne] at h2
    cases allowed with
    | none => exact ⟨by rintro am ⟨⟩, h2.2⟩
    | some am =>
      refine ⟨?_, h2.2⟩
      rintro am' h'
      cases h'
      simpa using h2.1

/-- The index-set form of `canPlaceAt_pix`. -/
theorem canPlaceAt_inkIdx {s : Sprite} {x y : Int} {W H : Nat}
    {allowed : Option (List Nat)} {occ : List Nat}
    (hc : canPlaceAt s x y W H allowed occ = true)
    {j : Nat} (hj : j ∈ inkIdx W s x y) :
    (∀ am, allowed = some am → am.getD j 0 = 1) ∧ occ.getD j 0 ≠ 1 := by
  obtain ⟨q, hq, rfl⟩ := mem_inkIdx.mp hj
  exact canPlaceAt_pix hc hq

/-- Covered canvas indices of an in-bounds placement are in range. -/
theorem inkIdx_lt {W H : Nat} {s : Sprite} {x y : Int}
    (hx : 0 ≤ x) (hy : 0 ≤ y) (hxw : x + s.width ≤ (W : Int))
    (hyh : y + s.height ≤ (H : Int)) {j : Nat} (hj : j ∈ inkIdx W s x y) :
    j < W * H := by
  obtain ⟨q, hq, rfl⟩ := mem_inkIdx.mp hj
  obtain ⟨h1, h2, _⟩ := mem_inkPixels.mp hq
  have ha : y.toNat + q.2 < H := by omega
  have hb : x.toNat + q.1 < W := by omega
  calc (y.toNat + q.2) * W + (x.toNat + q.1) < (y.toNat + q.2) * W + W := by omega
    _ = (y.toNat + q.2 + 1) * W := by ring
    _ ≤ H * W := Nat.mul_le_mul_right W ha
    _ = W * H := Nat.mul_comm H W

/-- A position returned by the spiral search loop passed both the
canvas-bounds check and the collision test. -/
theorem tryLoop_some {env : Env} {s : Sprite} {W H : Nat} {cx cy spiralStep maxT : ℚ}
    {allowed : Option (List Nat)} {occ : List Nat} :
    ∀ {fuel : Nat} {t : ℚ} {x y : Int},
      tryLoop env s W H cx cy spiralStep maxT allowed occ t fuel = some (x, y) →
      insideCanvasRect x y s.width s.height W H = true ∧
        canPlaceAt s x y W H allowed occ = true := by
  intro fuel
  induction fuel with
  | zero => intro t x y hc; simp [tryLoop] at hc
  | succ n ih =>
    intro t x y hc
    rw [tryLoop] at hc
    split at hc
    · dsimp only at hc
      split at hc
      · rename_i hok
        obtain ⟨rfl, rfl⟩ : _ ∧ _ := by
          have := Option.some.inj hc
          exact ⟨congrArg Prod.fst this, congrArg Prod.snd this⟩
        exact ⟨(Bool.and_eq_true _ _ ▸ hok).1, (Bool.and_eq_true _ _ ▸ hok).2⟩
      · exact ih hc
    · simp at hc

/-- `tryPlaceOne` either commits a position that passed the collision
test (stamping its ink into the occupancy grid) or leaves the grid
unchanged. -/
theorem tryPlaceOne_spec (env : Env) (s : Sprite) (W H : Nat) (cx cy : ℚ) (maxTries : Nat)
    (spiralStep maxT : ℚ) (allowed : Option (List Nat)) (occ : List Nat) :
    (∃ x y, tryPlaceOne env s W H cx cy maxTries spiralStep maxT allowed occ =
        (some (x, y), stampOccupied s x y W occ) ∧
        canPlaceAt s x y W H allowed occ = true) ∨
      tryPlaceOne env s W H cx cy maxTries spiralStep maxT allowed occ = (none, occ) := by
  rw [tryPlaceOne]
  split
  · right; rfl
  · rcases htl : tryLoop env s W H cx cy spiralStep maxT allowed occ 0 maxTries with _ | ⟨x, y⟩
    · right; simp [htl]
    · left
      exact ⟨x, y, by simp [htl], (tryLoop_some htl).2⟩

/-! ## The placement invariant -/

/-- Pairwise disjointness of the covered canvas ink indices of a
placement list. -/
def InkDisjoint (W : Nat) (ps : List Placement) : Prop :=
  ps.Pairwise fun p q => (inkIdx W p.sprite p.x p.y).Disjoint (inkIdx W q.sprite q.x q.y)

/-- The invariant maintained by the per-word loop of a placement run on
a `W × H` canvas with allowed mask `allowed`, relative to the seed
occupancy grid `occ0`: the grid keeps its length and only grows, every
recorded placement's ink is marked in the grid, was unmarked in the
seed, stays in canvas range and (when a mask is supplied) inside the
allowed region, and the recorded placements cover pairwise disjoint
canvas cells. -/
structure PlaceInv (W H : Nat) (allowed : Option (List Nat)) (occ0 : List Nat)
    (st : List Placement × List Nat) : Prop where
  len : st.2.length = occ0.length
  mono : ∀ j, occ0.getD j 0 = 1 → st.2.getD j 0 = 1
  covered : ∀ p ∈ st.1, ∀ j ∈ inkIdx W p.sprite p.x p.y, st.2.getD j 0 = 1
  seedFree : ∀ p ∈ st.1, ∀ j ∈ inkIdx W p.sprite p.x p.y, occ0.getD j 0 ≠ 1
  inBnd : ∀ p ∈ st.1, ∀ j ∈ inkIdx W p.sprite p.x p.y, j < W * H
  allowedOk : ∀ p ∈ st.1, ∀ am, allowed = some am →
    ∀ j ∈ inkIdx W p.sprite p.x p.y, am.getD j 0 = 1
  disj : InkDisjoint W st.1

/-- The invariant holds at the start of the loop. -/
theorem placeInv_init (W H : Nat) (allowed : Option (List Nat)) (occ0 : List Nat) :
    PlaceInv W H allowed occ0 ([], occ0) where
  len := rfl
  mono := fun _ h => h
  covered := fun p hp => absurd hp (List.not_mem_nil p)
  seedFree := fun p hp => absurd hp (List.not_mem_nil p)
  inBnd := fun p hp => absurd hp (List.not_mem_nil p)
  allowedOk := fun p hp => absurd hp (List.not_mem_nil p)
  disj := List.Pairwise.nil

/-- One step of the per-word loop preserves the invariant (for a seed
grid of the canvas size). -/
theorem placeStep_inv {env : Env} {W H : Nat} {allowed : Option (List Nat)}
    {cx cy sj : ℚ} {mt : Nat} {ss mT : ℚ} {wp : Nat} {occ0 : List Nat}
    (hlen : occ0.length = W * H) {st : List Placement × List Nat}
    (h : PlaceInv W H allowed occ0 st) (iw : Nat × WordInput) :
    PlaceInv W H allowed occ0 (placeStep env W H allowed cx cy sj mt ss mT wp st iw) := by
  unfold placeStep
  dsimp only
  generalize env.getSprite iw.2.text (max 1 (if iw.2.size = 0 then 1 else iw.2.size)) wp = sp
  generalize cx + ((env.jitter iw.1).1 * 2 - 1) * sj = cx'
  generalize cy + ((env.jitter iw.1).2 * 2 - 1) * sj = cy'
  rcases tryPlaceOne_spec env sp W H cx' cy' mt ss mT allowed st.2 with ⟨x, y, heq, hcan⟩ | heq
  · rw [heq]
    dsimp only
    obtain ⟨hx, hy, hxw, hyh⟩ := canPlaceAt_bounds hcan
    have hstlen : st.2.length = W * H := h.len.trans hlen
    refine ⟨?_, ?_, ?_, ?_, ?_, ?_, ?_⟩
    · rw [stampOccupied_length]; exact h.len
    · exact fun j hj => stampOccupied_mono _ _ _ _ _ _ (h.mono j hj)
    · intro p hp j hj
      rcases List.mem_append.mp hp with hp' | hp'
      · exact stampOccupied_mono _ _ _ _ _ _ (h.covered p hp' j hj)
      · have hpP : p = _ := List.mem_singleton.mp hp'
        subst hpP
        exact stampOccupied_covers _ _ _ _ _ _ hj
          (by rw [hstlen]; exact inkIdx_lt hx hy hxw hyh hj)
    · intro p hp j hj hocc0
      rcases List.mem_append.mp hp with hp' | hp'
      · exact h.seedFree p hp' j hj hocc0
      · have hpP : p = _ := List.mem_singleton.mp hp'
        subst hpP
        exact (canPlaceAt_inkIdx hcan hj).2 (h.mono j hocc0)
    · intro p hp j hj
      rcases List.mem_append.mp hp with hp' | hp'
      · exact h.inBnd p hp' j hj
      · have hpP : p = _ := List.mem_singleton.mp hp'
        subst hpP
        exact inkIdx_lt hx hy hxw hyh hj
    · intro p hp am ham j hj
      rcases List.mem_append.mp hp with hp' | hp'
      · exact h.allowedOk p hp' am ham j hj
      · have hpP : p = _ := List.mem_singleton.mp hp'
        subst hpP
        exact (canPlaceAt_inkIdx hcan hj).1 am ham
    · refine List.pairwise_append.mpr ⟨h.disj, List.pairwise_singleton .., ?_⟩
      intro a ha b hb
      have hbP : b = _ := List.mem_singleton.mp hb
      subst hbP
      intro k hk1 hk2
      exact (canPlaceAt_inkIdx hcan hk2).2 (h.covered a ha k hk1)
  · rw [heq]
    exact h

/-- The per-word loop preserves the invariant. -/
theorem foldl_placeStep_inv {env : Env} {W H : Nat} {allowed : Option (List Nat)}
    {cx cy sj : ℚ} {mt : Nat} {ss mT : ℚ} {wp : Nat} {occ0 : List Nat}
    (hlen : occ0.length = W * H) :
    ∀ (l : List (Nat × WordInput)) (st : List Placement × List Nat),
      PlaceInv W H allowed occ0 st →
      PlaceInv W H allowed occ0
        (l.foldl (placeStep env W H allowed cx cy sj mt ss mT wp) st) := by
  intro l
  induction l with
  | nil => exact fun st h => h
  | cons a l ih => exact fun st h => ih _ (placeStep_inv hlen h a)

/-- The whole placement run establishes the invariant relative to its
seed grid, provided the seed grid has the canvas size. -/
theorem coreFold_inv (env : Env) (words : List WordInput) (opts : PlaceOpts)
    (hlen : (seedMask opts).length = natWidth opts * natHeight opts) :
    PlaceInv (natWidth opts) (natHeight opts) opts.allowedMask (seedMask opts)
      (coreFold env words opts) :=
  foldl_placeStep_inv hlen _ _ (placeInv_init ..)

/-- Projection: the placements of `placeWordsCore` are those of its
per-word loop. -/
theorem placeWordsCore_placements (env : Env) (words : List WordInput) (opts : PlaceOpts) :
    (placeWordsCore env words opts).placements = (coreFold env words opts).1 := rfl

/-- Projection: the occupancy grid of `placeWordsCore` is that of its
per-word loop. -/
theorem placeWordsCore_occupiedMask (env : Env) (words : List WordInput) (opts : PlaceOpts) :
    (placeWordsCore env words opts).occupiedMask = (coreFold env words opts).2 := rfl

/-! ## Chains of placement runs -/

/-- One call of a chain of placement runs (environment, word list,
options); the chain seeds `existingOccupiedMask` with the occupancy grid
of the previous call. -/
def chainStep (st : List Placement × List Nat) (c : Env × List WordInput × PlaceOpts) :
    List Placement × List Nat :=
  let r := placeWordsCore c.1 c.2.1 { c.2.2 with existingOccupiedMask := some st.2 }
  (st.1 ++ r.placements, r.occupiedMask)

/-- A chain of placement runs, each seeded via `existingOccupiedMask`
with the occupancy grid of the previous one (the calling pattern of the
adaptive renderer); `occ` seeds the first call.  Returns all placements
committed by the chain and the final occupancy grid. -/
def runChain (calls : List (Env × List WordInput × PlaceOpts)) (occ : List Nat) :
    List Placement × List Nat :=
  calls.foldl chainStep ([], occ)

/-- The invariant maintained along a chain on a fixed `W × H` canvas:
the running occupancy grid keeps the canvas size, the ink of every
committed placement is marked in it, and committed placements cover
pairwise disjoint canvas cells. -/
structure ChainInv (W H : Nat) (st : List Placement × List Nat) : Prop where
  len : st.2.length = W * H
  covered : ∀ p ∈ st.1, ∀ j ∈ inkIdx W p.sprite p.x p.y, st.2.getD j 0 = 1
  disj : InkDisjoint W st.1

/-- One chain call preserves the chain invariant. -/
theorem chainStep_inv {W H : Nat} {st : List Placement × List Nat}
    (c : Env × List WordInput × PlaceOpts)
    (hW : natWidth c.2.2 = W) (hH : natHeight c.2.2 = H)
    (h : ChainInv W H st) : ChainInv W H (chainStep st c) := by
  subst hW
  subst hH
  have inv := coreFold_inv c.1 c.2.1 { c.2.2 with existingOccupiedMask := some st.2 } h.len
  refine ⟨inv.len.trans h.len, ?_, ?_⟩
  · intro p hp j hj
    rcases List.mem_append.mp hp with hp' | hp'
    · exact inv.mono j (h.covered p hp' j hj)
    · exact inv.covered p hp' j hj
  · refine List.pairwise_append.mpr ⟨h.disj, inv.disj, ?_⟩
    intro a ha b hb k hk1 hk2
    exact inv.seedFree b hb k hk2 (h.covered a ha k hk1)

/-- A whole chain preserves the chain invariant. -/
theorem runChain_foldl_inv {W H : Nat} :
    ∀ (calls : List (Env × List WordInput × PlaceOpts)) (st : List Placement × List Nat),
      (∀ c ∈ calls, natWidth c.2.2 = W ∧ natHeight c.2.2 = H) →
      ChainInv W H st → ChainInv W H (calls.foldl chainStep st) := by
  intro calls
  induction calls with
  | nil => exact fun st _ h => h
  | cons c l ih =>
    intro st hWH h
    exact ih _ (fun c' hc' => hWH c' (List.mem_cons_of_mem c hc'))
      (chainStep_inv c (hWH c (List.mem_cons_self c l)).1 (hWH c (List.mem_cons_self c l)).2 h)

/-! ## Mask containment (no length assumption on the seed grid) -/

/-- Every placement's ink lies inside the allowed mask. -/
def AllowedContained (W : Nat) (am : List Nat) (ps : List Placement) : Prop :=
  ∀ p ∈ ps, ∀ j ∈ inkIdx W p.sprite p.x p.y, am.getD j 0 = 1

/-- One step of the per-word loop preserves mask containment (for any
seed grid, of any length). -/
theorem placeStep_allowed {env : Env} {W H : Nat} {am : List Nat}
    {cx cy sj : ℚ} {mt : Nat} {ss mT : ℚ} {wp : Nat} {st : List Placement × List Nat}
    (h : AllowedContained W am st.1) (iw : Nat × WordInput) :
    AllowedContained W am (placeStep env W H (some am) cx cy sj mt ss mT wp st iw).1 := by
  unfold placeStep
  dsimp only
  generalize env.getSprite iw.2.text (max 1 (if iw.2.size = 0 then 1 else iw.2.size)) wp = sp
  generalize cx + ((env.jitter iw.1).1 * 2 - 1) * sj = cx'
  generalize cy + ((env.jitter iw.1).2 * 2 - 1) * sj = cy'
  rcases tryPlaceOne_spec env sp W H cx' cy' mt ss mT (some am) st.2 with ⟨x, y, heq, hcan⟩ | heq
  · rw [heq]
    dsimp only
    intro p hp j hj
    rcases List.mem_append.mp hp with hp' | hp'
    · exact h p hp' j hj
    · have hpP : p = _ := List.mem_singleton.mp hp'
      subst hpP
      exact (canPlaceAt_inkIdx hcan hj).1 am rfl
  · rw [heq]
    exact h

/-- The per-word loop preserves mask containment. -/
theorem foldl_placeStep_allowed {env : Env} {W H : Nat} {am : List Nat}
    {cx cy sj : ℚ} {mt : Nat} {ss mT : ℚ} {wp : Nat} :
    ∀ (l : List (Nat × WordInput)) (st : List Placement × List Nat),
      AllowedContained W am st.1 →
      AllowedContained W am
        ((l.foldl (placeStep env W H (some am) cx cy sj mt ss mT wp) st)).1 := by
  intro l
  induction l with
  | nil => exact fun st h => h
  | cons a l ih => exact fun st h => ih _ (placeStep_allowed h a)

/-- A successful `placeWordsAdvanced` call is the core run. -/
theorem placeWordsAdvanced_ok {env : Env} {words : List WordInput} {opts : PlaceOpts}
    {r : PlaceResult} (hok : placeWordsAdvanced env words opts = .ok r) :
    r = placeWordsCore env words opts := by
  rw [placeWordsAdvanced] at hok
  rcases ham : opts.allowedMask with _ | am <;> rw [ham] at hok <;> dsimp only at hok
  · exact (Except.ok.inj hok).symm
  · split at hok
    · exact Except.noConfusion hok
    · exact (Except.ok.inj hok).symm

/-! ## Concrete instances used by witnesses -/

/-- A concrete environment: constant-zero trig primitives, `π`
approximated by 3, every word rasterizing to a 1×1 full-ink sprite,
`Math.random` always drawing 1/2. -/
def envZ : Env :=
  { cosF := fun _ => 0, sinF := fun _ => 0, piA := 3,
    getSprite := fun _ _ _ => { width := 1, height := 1, mask := [1] },
    jitter := fun _ => (1 / 2, 1 / 2) }

/-- Concrete options: 1×1 canvas, no mask, no jitter. -/
def optsW1 : PlaceOpts :=
  { width := 1, height := 1, allowedMask := none, wordPadding := 1, maxTriesPerWord := 50,
    spiralStep := 1, spiralTurns := 1, startJitter := 0, existingOccupiedMask := none,
    preferredLocation := none }

/-- Concrete options: 1×1 canvas, all-allowed 1-cell mask. -/
def optsA1 : PlaceOpts :=
  { optsW1 with allowedMask := some [1] }

/-- Concrete options: 1×1 canvas with a 2-cell mask (a length
mismatch). -/
def optsBad : PlaceOpts :=
  { optsW1 with allowedMask := some [0, 0] }

/-! ## Claim C1 -/

/-- C1: for every chain of placement runs on a shared canvas (each call
seeded with the previous call's occupancy grid via
`existingOccupiedMask`, the first with any grid of the canvas size —
in particular the fresh zero grid of a single `placeWordsAdvanced`
call), the canvas ink indices of any two distinct committed placements
are disjoint. -/
theorem claim_C1_no_overlap (calls : List (Env × List WordInput × PlaceOpts))
    (occ : List Nat) (W H : Nat)
    (hWH : ∀ c ∈ calls, natWidth c.2.2 = W ∧ natHeight c.2.2 = H)
    (hlen : occ.length = W * H) :
    InkDisjoint W (runChain calls occ).1 :=
  (runChain_foldl_inv calls ([], occ) hWH
    ⟨hlen, fun p hp => absurd hp (List.not_mem_nil p), List.Pairwise.nil⟩).disj

/-- Witness for C1 at a concrete one-call chain on a 1×1 canvas. -/
theorem claim_C1_no_overlap_witness :
    InkDisjoint 1 (runChain [(envZ, [{ text := "a", size := 4 }], optsW1)] [0]).1 :=
  claim_C1_no_overlap [(envZ, [{ text := "a", size := 4 }], optsW1)] [0] 1 1
    (by
      intro c hc
      rw [List.mem_singleton] at hc
      subst hc
      exact ⟨by decide, by decide⟩)
    (by decide)

/-! ## Claim C2 -/

/-- C2: whenever a non-null `allowedMask` is supplied and
`placeWordsAdvanced` returns a result, every ink pixel of every returned
placement maps to an allowed-mask cell equal to 1 at the canvas index
`(y + yy) * width + (x + xx)`. -/
theorem claim_C2_containment (env : Env) (words : List WordInput) (opts : PlaceOpts)
    (r : PlaceResult) (am : List Nat)
    (hok : placeWordsAdvanced env words opts = .ok r)
    (ham : opts.allowedMask = some am) :
    ∀ p ∈ r.placements, ∀ j ∈ inkIdx (natWidth opts) p.sprite p.x p.y,
      am.getD j 0 = 1 := by
  have hr := placeWordsAdvanced_ok hok
  subst hr
  rw [placeWordsCore_placements]
  unfold coreFold
  rw [ham]
  exact @foldl_placeStep_allowed env (natWidth opts) (natHeight opts) am
    (coreCenter opts).1 (coreCenter opts).2 (max 0 opts.startJitter)
    (max 50 ⌊opts.maxTriesPerWord⌋).toNat (max (1 / 2) opts.spiralStep)
    (max 1 opts.spiralTurns * env.piA * 2) (max 0 ⌊opts.wordPadding⌋).toNat
    words.enum ([], seedMask opts) (fun p hp => absurd hp (List.not_mem_nil p))

/-! ## Claim C9 -/

/-- C9: a supplied `allowedMask` whose length differs from
`width * height` (width and height floored) makes `placeWordsAdvanced`
raise the mismatch error — for every environment and word list, so
before any sprite is rasterized and without any placement work — while
matching lengths always produce a result and no such error. -/
theorem claim_C9_mask_validation (opts : PlaceOpts) (am : List Nat)
    (ham : opts.allowedMask = some am) :
    (am.length ≠ natWidth opts * natHeight opts →
      ∀ (env : Env) (words : List WordInput),
        placeWordsAdvanced env words opts =
          .error ("allowedMask length mismatch: expected " ++
            toString (natWidth opts * natHeight opts) ++ ", got " ++ toString am.length)) ∧
    (am.length = natWidth opts * natHeight opts →
      ∀ (env : Env) (words : List WordInput),
        placeWordsAdvanced env words opts = .ok (placeWordsCore env words opts)) := by
  constructor <;> intro hl env words <;> rw [placeWordsAdvanced, ham] <;> dsimp only <;>
    simp [hl]

/-- Witness for C9 at a concrete mismatching mask (length 2 on a 1×1
canvas). -/
theorem claim_C9_mask_validation_witness :
    placeWordsAdvanced envZ [] optsBad =
      .error ("allowedMask length mismatch: expected " ++
        toString (natWidth optsBad * natHeight optsBad) ++ ", got " ++
        toString ([0, 0] : List Nat).length) :=
  (claim_C9_mask_validation optsBad [0, 0] rfl).1 (by decide) envZ []

/-! ## Claim C10 -/

/-- `List.set` seen through default reads, for any element type. -/
theorem getD_set_any {α : Type} (l : List α) (i j : Nat) (v d : α) :
    (l.set i v).getD j d = if i = j ∧ j < l.length then v else l.getD j d := by
  rcases eq_or_ne i j with rfl | hne
  · by_cases hj : i < l.length
    · simp [List.getD_eq_getElem?_getD, List.getElem?_set_self hj, hj]
    · rw [List.set_eq_of_length_le (le_of_not_lt hj)]
      simp [hj]
  · simp [List.getD_eq_getElem?_getD, List.getElem?_set_ne hne, hne]

/-- The heap-level word loop never writes any heap slot other than
`fresh`. -/
theorem foldl_heapStep_frame {env : Env} {W H : Nat} {allowed : Option (List Nat)}
    {cx cy sj : ℚ} {mt : Nat} {ss mT : ℚ} {wp : Nat} {fresh : Nat} :
    ∀ (l : List (Nat × WordInput)) (st : List (List Nat) × List Placement) (j : Nat),
      j ≠ fresh →
      ((l.foldl (heapStep env W H allowed cx cy sj mt ss mT wp fresh) st)).1.getD j [] =
        st.1.getD j [] := by
  intro l
  induction l with
  | nil => exact fun st j _ => rfl
  | cons a l ih =>
    intro st j hj
    rw [List.foldl_cons, ih _ j hj]
    unfold heapStep
    dsimp only
    rw [getD_set_any, if_neg]
    rintro ⟨h', _⟩
    exact hj h'.symm

/-- The heap-level word loop computes, in slot `fresh`, exactly the
value-level word loop run on the initial content of `fresh`, and the
same placements; the heap length never changes. -/
theorem foldl_heapStep_corr {env : Env} {W H : Nat} {allowed : Option (List Nat)}
    {cx cy sj : ℚ} {mt : Nat} {ss mT : ℚ} {wp : Nat} {fresh : Nat} :
    ∀ (l : List (Nat × WordInput)) (ps : List Placement) (hh : List (List Nat)),
      fresh < hh.length →
      ((l.foldl (heapStep env W H allowed cx cy sj mt ss mT wp fresh) (hh, ps))).1.getD
          fresh [] =
        (l.foldl (placeStep env W H allowed cx cy sj mt ss mT wp)
          (ps, hh.getD fresh [])).2 ∧
      ((l.foldl (heapStep env W H allowed cx cy sj mt ss mT wp fresh) (hh, ps))).2 =
        (l.foldl (placeStep env W H allowed cx cy sj mt ss mT wp)
          (ps, hh.getD fresh [])).1 ∧
      ((l.foldl (heapStep env W H allowed cx cy sj mt ss mT wp fresh) (hh, ps))).1.length =
        hh.length := by
  intro l
  induction l with
  | nil => exact fun ps hh _ => ⟨rfl, rfl, rfl⟩
  | cons a l ih =>
    intro ps hh hlt
    rw [List.foldl_cons, List.foldl_cons]
    have hstep :
        heapStep env W H allowed cx cy sj mt ss mT wp fresh (hh, ps) a =
          ((hh.set fresh
            (placeStep env W H allowed cx cy sj mt ss mT wp (ps, hh.getD fresh []) a).2),
            (placeStep env W H allowed cx cy sj mt ss mT wp (ps, hh.getD fresh []) a).1) :=
      rfl
    rw [hstep]
    have hlt2 : fresh < (hh.set fresh
        (placeStep env W H allowed cx cy sj mt ss mT wp (ps, hh.getD fresh []) a).2).length := by
      rw [List.length_set]
      exact hlt
    have hget : (hh.set fresh
        (placeStep env W H allowed cx cy sj mt ss mT wp (ps, hh.getD fresh []) a).2).getD
          fresh [] =
        (placeStep env W H allowed cx cy sj mt ss mT wp (ps, hh.getD fresh []) a).2 := by
      rw [getD_set_any]
      simp [hlt]
    obtain ⟨h1, h2, h3⟩ := ih
      (placeStep env W H allowed cx cy sj mt ss mT wp (ps, hh.getD fresh []) a).1 _ hlt2
    rw [hget] at h1 h2
    refine ⟨?_, ?_, ?_⟩
    · rw [h1]
    · rw [h2]
    · rw [h3, List.length_set]

/-- C10: the heap-level placement run never mutates the caller's
existing occupancy array: `new Uint8Array(existingOccupiedMask)` copies
it into a fresh array (`fresh = h.length`) and every occupancy commit
writes only there — afterwards every previously allocated array
(including the caller's, at any `ref < h.length`) holds exactly its
value from before the call, while the fresh slot holds the occupancy
grid of the value-level run seeded with the caller's array, with the
same placements. -/
theorem claim_C10_no_mutation (env : Env) (words : List WordInput) (opts : PlaceOpts)
    (h : List (List Nat)) (ref : Nat) (j : Nat) (hj : j < h.length) :
    (placeWordsHeap env words opts h ref).2.1 = h.length ∧
    (placeWordsHeap env words opts h ref).1.getD j [] = h.getD j [] ∧
    (placeWordsHeap env words opts h ref).1.getD h.length [] =
      (placeWordsCore env words
        { opts with existingOccupiedMask := some (h.getD ref []) }).occupiedMask ∧
    (placeWordsHeap env words opts h ref).2.2 =
      (placeWordsCore env words
        { opts with existingOccupiedMask := some (h.getD ref []) }).placements := by
  have hne : j ≠ h.length := Nat.ne_of_lt hj
  have hfr : h.length < (h ++ [h.getD ref []]).length := by
    rw [List.length_append]
    simp
  have hseed : (h ++ [h.getD ref []]).getD h.length [] = h.getD ref [] := by
    rw [List.getD_eq_getElem?_getD, List.getElem?_append_right (Nat.le_refl _)]
    simp
  obtain ⟨h1, h2, _⟩ :=
    @foldl_heapStep_corr env (natWidth opts) (natHeight opts) opts.allowedMask
      (coreCenter opts).1 (coreCenter opts).2 (max 0 opts.startJitter)
      (max 50 ⌊opts.maxTriesPerWord⌋).toNat (max (1 / 2) opts.spiralStep)
      (max 1 opts.spiralTurns * env.piA * 2) (max 0 ⌊opts.wordPadding⌋).toNat h.length
      words.enum [] (h ++ [h.getD ref []]) hfr
  rw [hseed] at h1 h2
  refine ⟨rfl, ?_, ?_, ?_⟩
  · have hframe :=
      @foldl_heapStep_frame env (natWidth opts) (natHeight opts) opts.allowedMask
        (coreCenter opts).1 (coreCenter opts).2 (max 0 opts.startJitter)
        (max 50 ⌊opts.maxTriesPerWord⌋).toNat (max (1 / 2) opts.spiralStep)
        (max 1 opts.spiralTurns * env.piA * 2) (max 0 ⌊opts.wordPadding⌋).toNat h.length
        words.enum ((h ++ [h.getD ref []]), []) j hne
    refine Eq.trans ?_ (hframe.trans ?_)
    · rfl
    · rw [List.getD_eq_getElem?_getD, List.getElem?_append_left hj,
        ← List.getD_eq_getElem?_getD]
  · exact h1
  · exact h2

/-- Witness for C10 at a concrete heap holding one caller array. -/
theorem claim_C10_no_mutation_witness :
    (placeWordsHeap envZ [{ text := "a", size := 4 }] optsW1 [[1, 0]] 0).2.1 = 1 ∧
    (placeWordsHeap envZ [{ text := "a", size := 4 }] optsW1 [[1, 0]] 0).1.getD 0 [] =
      [[1, 0]].getD 0 [] ∧
    (placeWordsHeap envZ [{ text := "a", size := 4 }] optsW1 [[1, 0]] 0).1.getD 1 [] =
      (placeWordsCore envZ [{ text := "a", size := 4 }]
        { optsW1 with existingOccupiedMask := some ([[1, 0]].getD 0 []) }).occupiedMask ∧
    (placeWordsHeap envZ [{ text := "a", size := 4 }] optsW1 [[1, 0]] 0).2.2 =
      (placeWordsCore envZ [{ text := "a", size := 4 }]
        { optsW1 with existingOccupiedMask := some ([[1, 0]].getD 0 []) }).placements :=
  claim_C10_no_mutation envZ [{ text := "a", size := 4 }] optsW1 [[1, 0]] 0 0 (by decide)

/-! ## Claim C5 -/

/-- Grid growth: every cell reading `1` in `a` reads `1` in `b`. -/
def MaskStep (a b : List Nat) : Prop := ∀ j, a.getD j 0 = 1 → b.getD j 0 = 1

/-- `orMask` preserves the length (of its first argument). -/
theorem orMask_length (a b : List Nat) : (orMask a b).length = a.length := by
  simp [orMask]

/-- Cell-wise description of `orMask` in range. -/
theorem orMask_getD (a b : List Nat) (j : Nat) (hj : j < a.length) :
    (orMask a b).getD j 0 = if b.getD j 0 == 1 then 1 else a.getD j 0 := by
  have hj' : j < (orMask a b).length := by rw [orMask_length]; exact hj
  rw [List.getD_eq_getElem _ _ hj']
  simp only [orMask]
  rw [List.getElem_map, List.getElem_range]

/-- `orMask` never clears a cell. -/
theorem orMask_mono (a b : List Nat) (j : Nat) (h : a.getD j 0 = 1) :
    (orMask a b).getD j 0 = 1 := by
  by_cases hj : j < a.length
  · rw [orMask_getD a b j hj]
    split
    · rfl
    · exact h
  · rw [List.getD_eq_default] at h
    · exact absurd h (by decide)
    · exact le_of_not_lt hj

/-- Coverage only grows when the occupancy grid only grows (same
grid length). -/
theorem covFrac_mono (occ occ2 : List Nat) (am : Option (List Nat)) (W H : Nat)
    (hlen : occ.length = occ2.length) (h : MaskStep occ occ2) :
    (calculateCoverage occ am W H).covFrac ≤ (calculateCoverage occ2 am W H).covFrac := by
  cases am with
  | some a =>
    unfold calculateCoverage
    dsimp only
    have hocc :
        ((List.range a.length).filter fun i =>
          a.getD i 0 == 1 && occ.getD i 0 == 1).length ≤
        ((List.range a.length).filter fun i =>
          a.getD i 0 == 1 && occ2.getD i 0 == 1).length := by
      rw [← List.countP_eq_length_filter, ← List.countP_eq_length_filter]
      apply List.countP_mono_left
      intro i _ hi
      simp only [Bool.and_eq_true, beq_iff_eq] at hi ⊢
      exact ⟨hi.1, h i hi.2⟩
    by_cases hApos :
        0 < ((List.range a.length).filter fun i => a.getD i 0 == 1).length
    · rw [if_pos hApos, if_pos hApos]
      gcongr
    · rw [if_neg hApos]
      split
      · positivity
      · exact le_refl 0
  | none =>
    unfold calculateCoverage
    dsimp only
    have hocc :
        ((List.range occ.length).filter fun i => occ.getD i 0 == 1).length ≤
        ((List.range occ2.length).filter fun i => occ2.getD i 0 == 1).length := by
      rw [← hlen, ← List.countP_eq_length_filter, ← List.countP_eq_length_filter]
      apply List.countP_mono_left
      intro i _ hi
      simp only [beq_iff_eq] at hi ⊢
      exact h i hi
    by_cases hApos : 0 < W * H
    · rw [if_pos hApos, if_pos hApos]
      gcongr
    · rw [if_neg hApos]
      split
      · positivity
      · exact le_refl 0

/-- The duplicate-fill loop only grows the occupancy grid and keeps its
length. -/
theorem fillLoop_mono (ctx : RenderCtx) (smallWords : List WordInput) :
    ∀ (fuel k : Nat) (ps : List Placement) (occ : List Nat) (cov : ℚ),
      MaskStep occ (fillLoop ctx smallWords fuel k ps occ cov).2 ∧
      (fillLoop ctx smallWords fuel k ps occ cov).2.length = occ.length := by
  intro fuel
  induction fuel with
  | zero => exact fun k ps occ cov => ⟨fun j h => h, rfl⟩
  | succ n ih =>
    intro k ps occ cov
    rw [fillLoop]
    split
    · split
      · exact ⟨fun j h => h, rfl⟩
      · split
        · exact ⟨fun j h => h, rfl⟩
        · dsimp only
          split
          · exact ⟨fun j h => h, rfl⟩
          · obtain ⟨hm, hl⟩ := ih (k + 1) _ _ _
            exact ⟨fun j h => hm j (orMask_mono _ _ j h), hl.trans (orMask_length _ _)⟩
    · exact ⟨fun j h => h, rfl⟩

/-- C5: occupancy grids grow monotonically — `stampOccupied` and the
renderer's occupancy merge only ever set cells to `1` (a set cell never
clears), and consequently the coverage fraction after the duplicate-fill
phase is at least the coverage fraction after Phase 1 alone. -/
theorem claim_C5_monotone_coverage :
    (∀ (s : Sprite) (x y : Int) (W : Nat) (occ : List Nat) (j : Nat),
      ((stampOccupied s x y W occ).getD j 0 = occ.getD j 0 ∨
        (stampOccupied s x y W occ).getD j 0 = 1) ∧
      (occ.getD j 0 = 1 → (stampOccupied s x y W occ).getD j 0 = 1)) ∧
    (∀ (a b : List Nat) (j : Nat), a.getD j 0 = 1 → (orMask a b).getD j 0 = 1) ∧
    ∀ (ctx : RenderCtx) (words : List WordInput),
      (calculateCoverage (phase1 ctx (normalizeWords words)).2 (some ctx.allowedMask)
        ctx.W ctx.H).covFrac ≤
      (calculateCoverage
        (fillPhase ctx (normalizeWords words) (phase1 ctx (normalizeWords words)).1
          (phase1 ctx (normalizeWords words)).2).2
        (some ctx.allowedMask) ctx.W ctx.H).covFrac := by
  refine ⟨?_, fun a b j => orMask_mono a b j, ?_⟩
  · intro s x y W occ j
    constructor
    · rw [stampOccupied_getD]
      split
      · exact Or.inr rfl
      · exact Or.inl rfl
    · exact stampOccupied_mono s x y W occ j
  · intro ctx words
    unfold fillPhase
    dsimp only
    split
    · obtain ⟨hm, hl⟩ :=
        fillLoop_mono ctx
          ((normalizeWords words).drop (⌊((normalizeWords words).length : ℚ) * (6 / 10)⌋).toNat)
          (min 400 ((normalizeWords words).length * 8)) 0
          (phase1 ctx (normalizeWords words)).1 (phase1 ctx (normalizeWords words)).2
          (calculateCoverage (phase1 ctx (normalizeWords words)).2 (some ctx.allowedMask)
            ctx.W ctx.H).covFrac
      exact covFrac_mono _ _ _ _ _ hl.symm hm
    · exact le_refl _

/-- Witness for C5: a concrete stamped cell stays set. -/
theorem claim_C5_monotone_coverage_witness :
    (stampOccupied { width := 1, height := 1, mask := [1] } 0 0 1 [1]).getD 0 0 = 1 :=
  (claim_C5_monotone_coverage.1 { width := 1, height := 1, mask := [1] } 0 0 1 [1] 0).2
    (by decide)

/-! ## Claim C7 -/

/-- Modelled from the spec's candidate formula (for comparison with the
code): the top-left candidate position at spiral angle `t` — sprite
center `(cx + r·cos t, cy + r·sin t)` with `r = spiralStep · t`, rounded
after subtracting the half-extents. -/
def specSpiralPos (env : Env) (cx cy spiralStep : ℚ) (s : Sprite) (t : ℚ) : Int × Int :=
  (jsRound (cx + spiralStep * t * env.cosF t - (s.width : ℚ) / 2),
    jsRound (cy + spiralStep * t * env.sinF t - (s.height : ℚ) / 2))

/-- Modelled from the spec: a spiral candidate passes when it lies
fully inside the canvas and clears the mask/collision checks. -/
def specSpiralPass (env : Env) (cx cy spiralStep : ℚ) (s : Sprite) (W H : Nat)
    (allowed : Option (List Nat)) (occ : List Nat) (t : ℚ) : Bool :=
  insideCanvasRect (specSpiralPos env cx cy spiralStep s t).1
      (specSpiralPos env cx cy spiralStep s t).2 s.width s.height W H &&
    canPlaceAt s (specSpiralPos env cx cy spiralStep s t).1
      (specSpiralPos env cx cy spiralStep s t).2 W H allowed occ

/-- Modelled from the spec: the sampled spiral angles, capped both by
the total angle (`t ≤ maxT`, i.e. at most `⌊maxT / tStep⌋ + 1` samples)
and by the candidate budget `maxTries`. -/
def specCandTimes (maxT : ℚ) (maxTries : Nat) : List ℚ :=
  (List.range (min maxTries (⌊maxT / tStep⌋.toNat + 1))).map fun n : Nat => (n : ℚ) * tStep

/-- The tail of the sampled spiral angles starting at sample `n0` with
`fuel` tries left. -/
def specCandTimesFrom (maxT : ℚ) (n0 fuel : Nat) : List ℚ :=
  (List.range (min fuel (⌊maxT / tStep⌋.toNat + 1 - n0))).map
    fun k => ((n0 + k : Nat) : ℚ) * tStep

/-- The spiral search loop returns the first sampled spiral angle that
passes bounds, mask and collision checks (mapped to its candidate
position). -/
theorem tryLoop_eq_find {env : Env} {s : Sprite} {W H : Nat}
    {cx cy spiralStep maxT : ℚ} {allowed : Option (List Nat)} {occ : List Nat}
    (hT : 0 ≤ maxT) :
    ∀ (fuel n0 : Nat),
      tryLoop env s W H cx cy spiralStep maxT allowed occ ((n0 : ℚ) * tStep) fuel =
        ((specCandTimesFrom maxT n0 fuel).find?
          (specSpiralPass env cx cy spiralStep s W H allowed occ)).map
          (specSpiralPos env cx cy spiralStep s) := by
  have htpos : (0 : ℚ) < tStep := by norm_num [tStep]
  have hfl : 0 ≤ ⌊maxT / tStep⌋ := Int.floor_nonneg.mpr (div_nonneg hT (le_of_lt htpos))
  intro fuel
  induction fuel with
  | zero =>
    intro n0
    simp [tryLoop, specCandTimesFrom]
  | succ n ih =>
    intro n0
    rw [tryLoop]
    by_cases hle : ((n0 : ℚ) * tStep) ≤ maxT
    · have hn0 : n0 < ⌊maxT / tStep⌋.toNat + 1 := by
        have h1 : ((n0 : ℚ)) ≤ maxT / tStep := (le_div_iff₀ htpos).mpr hle
        have h2 : ((n0 : ℤ)) ≤ ⌊maxT / tStep⌋ := by
          exact_mod_cast Int.le_floor.mpr (by exact_mod_cast h1)
        omega
      have hm : ⌊maxT / tStep⌋.toNat + 1 - n0 = (⌊maxT / tStep⌋.toNat - n0) + 1 := by omega
      have hsplit : specCandTimesFrom maxT n0 (n + 1) =
          ((n0 : ℚ) * tStep) :: specCandTimesFrom maxT (n0 + 1) n := by
        rw [specCandTimesFrom, specCandTimesFrom, hm, Nat.succ_min_succ,
          List.range_succ_eq_map]
        have hm2 : ⌊maxT / tStep⌋.toNat + 1 - (n0 + 1) = ⌊maxT / tStep⌋.toNat - n0 := by
          omega
        rw [hm2, List.map_cons, List.map_map]
        refine congrArg₂ _ (by norm_num) ?_
        refine List.map_congr_left ?_
        intro k _
        have hk : n0 + (k + 1) = n0 + 1 + k := by omega
        simp [Function.comp, hk]
      rw [hsplit, if_pos hle]
      dsimp only
      by_cases hpass :
          specSpiralPass env cx cy spiralStep s W H allowed occ ((n0 : ℚ) * tStep) = true
      · rw [List.find?_cons_of_pos _ hpass]
        rw [if_pos ?_]
        · rfl
        · exact hpass
      · rw [List.find?_cons_of_neg _ (by simpa using hpass)]
        rw [if_neg ?_]
        · have harg : (n0 : ℚ) * tStep + tStep = ((n0 + 1 : Nat) : ℚ) * tStep := by
            push_cast
            ring
          rw [harg]
          exact ih (n0 + 1)
        · simpa [specSpiralPass] using hpass
    · rw [if_neg hle]
      have hn0 : ⌊maxT / tStep⌋.toNat + 1 - n0 = 0 := by
        have h1 : maxT / tStep < (n0 : ℚ) := by
          rw [div_lt_iff₀ htpos]
          exact lt_of_not_le hle
        have h2 : ⌊maxT / tStep⌋ < (n0 : ℤ) := Int.floor_lt.mpr (by exact_mod_cast h1)
        omega
      rw [specCandTimesFrom, hn0]
      simp

/-- C7: the candidate sequence of the spiral search is exactly the
Archimedean spiral `r(t) = spiralStep · t` around the (jittered) start
center, with sprite-center coordinates `(cx + r·cos t, cy + r·sin t)`
sampled at the fixed angular step `tStep`; the sequence is cut off as
soon as the angle would exceed `spiralTurns · π · 2` (at most
`⌊maxT / tStep⌋ + 1` samples) or the candidate count reaches
`maxTries`; and `tryPlaceOne` commits exactly the first candidate that
passes the bounds, mask and collision checks, stamping it into the
occupancy grid. -/
theorem claim_C7_spiral_search (env : Env) (s : Sprite) (W H : Nat)
    (cx cy spiralStep turns : ℚ) (allowed : Option (List Nat)) (occ : List Nat)
    (maxTries : Nat) (hT : 0 ≤ turns * env.piA * 2) :
    (specCandTimes (turns * env.piA * 2) maxTries).length =
      min maxTries (⌊turns * env.piA * 2 / tStep⌋.toNat + 1) ∧
    (∀ n : Nat, n < (specCandTimes (turns * env.piA * 2) maxTries).length →
      (specCandTimes (turns * env.piA * 2) maxTries).getD n 0 = (n : ℚ) * tStep) ∧
    (s.width ≤ W → s.height ≤ H →
      tryPlaceOne env s W H cx cy maxTries spiralStep (turns * env.piA * 2) allowed occ =
        (match (specCandTimes (turns * env.piA * 2) maxTries).find?
            (specSpiralPass env cx cy spiralStep s W H allowed occ) with
          | some t =>
            (some (specSpiralPos env cx cy spiralStep s t),
              stampOccupied s (specSpiralPos env cx cy spiralStep s t).1
                (specSpiralPos env cx cy spiralStep s t).2 W occ)
          | none => (none, occ))) := by
  refine ⟨by rw [specCandTimes, List.length_map, List.length_range], ?_, ?_⟩
  · intro n hn
    rw [specCandTimes, List.length_map, List.length_range] at hn
    rw [specCandTimes,
      List.getD_eq_getElem _ _ (by rw [List.length_map, List.length_range]; exact hn),
      List.getElem_map, List.getElem_range]
  · intro hw hh
    have hz : specCandTimesFrom (turns * env.piA * 2) 0 maxTries =
        specCandTimes (turns * env.piA * 2) maxTries := by
      rw [specCandTimesFrom, specCandTimes, Nat.sub_zero]
      refine List.map_congr_left ?_
      intro k _
      rw [Nat.zero_add]
    have hfind := @tryLoop_eq_find env s W H cx cy spiralStep (turns * env.piA * 2)
      allowed occ hT maxTries 0
    rw [hz] at hfind
    rw [show ((0 : Nat) : ℚ) * tStep = 0 by norm_num] at hfind
    rw [tryPlaceOne, if_neg (by simp [Nat.not_lt.mpr hw, Nat.not_lt.mpr hh]), hfind]
    rcases hf : (specCandTimes (turns * env.piA * 2) maxTries).find?
        (specSpiralPass env cx cy spiralStep s W H allowed occ) with _ | t
    · rfl
    · rfl

/-- Witness for C7 on a concrete 1×1 canvas. -/
theorem claim_C7_spiral_search_witness :
    (specCandTimes (1 * envZ.piA * 2) 50).length =
      min 50 (⌊1 * envZ.piA * 2 / tStep⌋.toNat + 1) ∧
    (∀ n : Nat, n < (specCandTimes (1 * envZ.piA * 2) 50).length →
      (specCandTimes (1 * envZ.piA * 2) 50).getD n 0 = (n : ℚ) * tStep) ∧
    (1 ≤ 1 → 1 ≤ 1 →
      tryPlaceOne envZ { width := 1, height := 1, mask := [1] } 1 1 (1 / 2) (1 / 2) 50 1
          (1 * envZ.piA * 2) none [0] =
        (match (specCandTimes (1 * envZ.piA * 2) 50).find?
            (specSpiralPass envZ (1 / 2) (1 / 2) 1 { width := 1, height := 1, mask := [1] }
              1 1 none [0]) with
          | some t =>
            (some (specSpiralPos envZ (1 / 2) (1 / 2) 1
                { width := 1, height := 1, mask := [1] } t),
              stampOccupied { width := 1, height := 1, mask := [1] }
                (specSpiralPos envZ (1 / 2) (1 / 2) 1
                  { width := 1, height := 1, mask := [1] } t).1
                (specSpiralPos envZ (1 / 2) (1 / 2) 1
                  { width := 1, height := 1, mask := [1] } t).2 1 [0])
          | none => (none, [0]))) :=
  claim_C7_spiral_search envZ { width := 1, height := 1, mask := [1] } 1 1 (1 / 2) (1 / 2)
    1 1 none [0] 50 (by norm_num [envZ])

/-! ## Claim C8 -/

/-- Membership in the closed integer interval list. -/
theorem mem_intRange {lo hi a : Int} : a ∈ intRange lo hi ↔ lo ≤ a ∧ a ≤ hi := by
  simp only [intRange, List.mem_map, List.mem_range]
  constructor
  · rintro ⟨k, hk, rfl⟩
    omega
  · intro h
    exact ⟨(a - lo).toNat, by omega, by omega⟩

/-- The per-pixel erosion scan holds exactly when every cell within
Manhattan distance `r` is in canvas and equal to 1 (for 0/1 masks). -/
theorem erodeAt_eq_true {mask : List Nat} {width height x y r : Nat}
    (hmask : ∀ i, mask.getD i 0 ≤ 1) :
    erodeAt mask width height x y r = true ↔
      ∀ dx dy : Int, |dx| + |dy| ≤ (r : Int) →
        0 ≤ (x : Int) + dx ∧ (x : Int) + dx < width ∧
        0 ≤ (y : Int) + dy ∧ (y : Int) + dy < height ∧
        mask.getD (((y : Int) + dy).toNat * width + ((x : Int) + dx).toNat) 0 = 1 := by
  rw [erodeAt]
  split
  · rename_i hc
    simp only [beq_iff_eq] at hc
    constructor
    · intro hfalse
      exact absurd hfalse (by decide)
    · intro hall
      have h0 := hall 0 0 (by simp)
      rw [show ((y : Int) + 0).toNat = y by omega, show ((x : Int) + 0).toNat = x by omega]
        at h0
      rw [hc] at h0
      exact absurd h0.2.2.2.2 (by decide)
  · rename_i hc
    simp only [beq_iff_eq] at hc
    rw [List.all_eq_true]
    constructor
    · intro hall dx dy hdist
      have hdy : dy ∈ intRange (-(r : Int)) r :=
        mem_intRange.mpr (by simp only [Int.abs_eq_natAbs] at hdist; omega)
      have hrow := hall dy hdy
      dsimp only at hrow
      split at hrow
      · exact absurd hrow (by decide)
      · rename_i hyy
        simp only [Bool.or_eq_true, decide_eq_true_eq, not_or, not_lt, not_le] at hyy
        rw [List.all_eq_true] at hrow
        have hdx : (x : Int) + dx ∈
            intRange ((x : Int) - ((r : Int) - |dy|)) ((x : Int) + ((r : Int) - |dy|)) :=
          mem_intRange.mpr (by simp only [Int.abs_eq_natAbs] at hdist ⊢; omega)
        have hcell := hrow _ hdx
        split at hcell
        · exact absurd hcell (by decide)
        · rename_i hxx
          simp only [Bool.or_eq_true, decide_eq_true_eq, not_or, not_lt, not_le] at hxx
          simp only [Bool.not_eq_true', beq_eq_false_iff_ne, ne_eq] at hcell
          have hle := hmask (((y : Int) + dy).toNat * width + ((x : Int) + dx).toNat)
          exact ⟨by omega, by omega, by omega, by omega, by omega⟩
    · intro hall dy hdy
      rw [mem_intRange] at hdy
      dsimp only
      have h0 := hall 0 dy (by simp only [Int.abs_eq_natAbs]; omega)
      split
      · rename_i hyy
        simp only [Bool.or_eq_true, decide_eq_true_eq] at hyy
        omega
      · rw [List.all_eq_true]
        intro xx hxx
        rw [mem_intRange] at hxx
        have hcell := hall (xx - (x : Int)) dy
          (by simp only [Int.abs_eq_natAbs] at hxx ⊢; omega)
        rw [show (x : Int) + (xx - (x : Int)) = xx by omega] at hcell
        split
        · rename_i hxb
          simp only [Bool.or_eq_true, decide_eq_true_eq] at hxb
          omega
        · simp only [Bool.not_eq_true', beq_eq_false_iff_ne, ne_eq]
          omega

/-- The per-pixel dilation scan holds exactly when some in-canvas cell
within Manhattan distance `r` equals 1. -/
theorem dilateAt_eq_true {mask : List Nat} {width height x y r : Nat}
    (hx : x < width) (hy : y < height) :
    dilateAt mask width height x y r = true ↔
      ∃ dx dy : Int, |dx| + |dy| ≤ (r : Int) ∧
        0 ≤ (x : Int) + dx ∧ (x : Int) + dx < width ∧
        0 ≤ (y : Int) + dy ∧ (y : Int) + dy < height ∧
        mask.getD (((y : Int) + dy).toNat * width + ((x : Int) + dx).toNat) 0 = 1 := by
  rw [dilateAt]
  split
  · rename_i hc
    simp only [beq_iff_eq] at hc
    constructor
    · intro _
      refine ⟨0, 0, by simp, by omega, by omega, by omega, by omega, ?_⟩
      rw [show ((y : Int) + 0).toNat = y by omega, show ((x : Int) + 0).toNat = x by omega]
      exact hc
    · intro _
      rfl
  · rename_i hc
    rw [List.any_eq_true]
    constructor
    · rintro ⟨dy, hdy, hrow⟩
      rw [mem_intRange] at hdy
      dsimp only at hrow
      split at hrow
      · exact absurd hrow (by decide)
      · rename_i hyy
        simp only [Bool.or_eq_true, decide_eq_true_eq, not_or, not_lt, not_le] at hyy
        rw [List.any_eq_true] at hrow
        obtain ⟨xx, hxx, hcell⟩ := hrow
        rw [mem_intRange] at hxx
        split at hcell
        · exact absurd hcell (by decide)
        · rename_i hxb
          simp only [Bool.or_eq_true, decide_eq_true_eq, not_or, not_lt, not_le] at hxb
          simp only [beq_iff_eq] at hcell
          refine ⟨xx - (x : Int), dy, by simp only [Int.abs_eq_natAbs] at hxx ⊢; omega,
            by omega, by omega, by omega, by omega, ?_⟩
          rw [show (x : Int) + (xx - (x : Int)) = xx by omega]
          exact hcell
    · rintro ⟨dx, dy, hdist, h1, h2, h3, h4, h5⟩
      refine ⟨dy, mem_intRange.mpr (by simp only [Int.abs_eq_natAbs] at hdist; omega), ?_⟩
      dsimp only
      rw [if_neg (by
        simp only [Bool.or_eq_true, decide_eq_true_eq, not_or, not_lt, not_le]
        omega)]
      rw [List.any_eq_true]
      refine ⟨(x : Int) + dx, mem_intRange.mpr
        (by simp only [Int.abs_eq_natAbs] at hdist ⊢; omega), ?_⟩
      rw [if_neg (by
        simp only [Bool.or_eq_true, decide_eq_true_eq, not_or, not_lt, not_le]
        omega)]
      simp only [beq_iff_eq]
      exact h5

/-- Cell-wise description of `morphMask` for an integer radius
`r ≥ 1`. -/
theorem morphMask_getD {mask : List Nat} {width height r x y : Nat} (op : MorphOp)
    (hr : 1 ≤ r) (hx : x < width) (hy : y < height) :
    (morphMask mask width height (r : ℚ) op).getD (y * width + x) 0 =
      (match op with
        | .erode => if erodeAt mask width height x y r then 1 else 0
        | .dilate => if dilateAt mask width height x y r then 1 else 0) := by
  have hw : 0 < width := Nat.lt_of_le_of_lt (Nat.zero_le x) hx
  have hradius : (max 0 ⌊((r : Nat) : ℚ)⌋).toNat = r := by
    rw [Int.floor_natCast]
    omega
  rw [morphMask]
  dsimp only
  rw [hradius, if_neg (by omega)]
  have hp : y * width + x < width * height := by
    calc y * width + x < y * width + width := by omega
      _ = (y + 1) * width := by ring
      _ ≤ height * width := Nat.mul_le_mul_right width hy
      _ = width * height := Nat.mul_comm height width
  rw [List.getD_eq_getElem _ _ (by rw [List.length_map, List.length_range]; exact hp),
    List.getElem_map, List.getElem_range]
  have hmod : (y * width + x) % width = x := by
    rw [Nat.mul_comm y width, Nat.mul_add_mod, Nat.mod_eq_of_lt hx]
  have hdiv : (y * width + x) / width = y := by
    rw [Nat.mul_comm y width, Nat.mul_add_div hw, Nat.div_eq_of_lt hx, Nat.add_zero]
  rw [hmod, hdiv]

/-- C8: for every 0/1 mask, every integer radius `r ≥ 1` and every
canvas pixel `(x, y)`: erosion marks the pixel iff every cell within
Manhattan distance `r` lies in canvas and equals 1 (out-of-canvas
neighbours fail the test, so border pixels always erode to 0); dilation
marks the pixel iff some in-canvas cell within Manhattan distance `r`
equals 1 (out-of-canvas neighbours have no effect); and the mask
builder's `shapePadding` dispatch applies erosion for positive values
and dilation by the absolute value for negative values. -/
theorem claim_C8_morphology (mask : List Nat) (width height r x y : Nat)
    (hr : 1 ≤ r) (hx : x < width) (hy : y < height)
    (hmask : ∀ i, mask.getD i 0 ≤ 1) :
    ((morphMask mask width height (r : ℚ) .erode).getD (y * width + x) 0 = 1 ↔
      ∀ dx dy : Int, |dx| + |dy| ≤ (r : Int) →
        0 ≤ (x : Int) + dx ∧ (x : Int) + dx < width ∧
        0 ≤ (y : Int) + dy ∧ (y : Int) + dy < height ∧
        mask.getD (((y : Int) + dy).toNat * width + ((x : Int) + dx).toNat) 0 = 1) ∧
    ((morphMask mask width height (r : ℚ) .dilate).getD (y * width + x) 0 = 1 ↔
      ∃ dx dy : Int, |dx| + |dy| ≤ (r : Int) ∧
        0 ≤ (x : Int) + dx ∧ (x : Int) + dx < width ∧
        0 ≤ (y : Int) + dy ∧ (y : Int) + dy < height ∧
        mask.getD (((y : Int) + dy).toNat * width + ((x : Int) + dx).toNat) 0 = 1) ∧
    (∀ p : Int, 0 < p →
      applyShapePadding mask width height p = morphMask mask width height (p : ℚ) .erode) ∧
    (∀ p : Int, p < 0 →
      applyShapePadding mask width height p =
        morphMask mask width height (((-p : Int)) : ℚ) .dilate) := by
  refine ⟨?_, ?_, ?_, ?_⟩
  · rw [morphMask_getD MorphOp.erode hr hx hy]
    dsimp only
    by_cases he : erodeAt mask width height x y r = true
    · rw [if_pos he]
      exact ⟨fun _ => (erodeAt_eq_true hmask).mp he, fun _ => rfl⟩
    · rw [if_neg he]
      exact ⟨fun h0 => absurd h0 (by decide),
        fun h => absurd ((erodeAt_eq_true hmask).mpr h) he⟩
  · rw [morphMask_getD MorphOp.dilate hr hx hy]
    dsimp only
    by_cases hd : dilateAt mask width height x y r = true
    · rw [if_pos hd]
      exact ⟨fun _ => (dilateAt_eq_true hx hy).mp hd, fun _ => rfl⟩
    · rw [if_neg hd]
      exact ⟨fun h0 => absurd h0 (by decide),
        fun h => absurd ((dilateAt_eq_true hx hy).mpr h) hd⟩
  · intro p hp
    rw [applyShapePadding, if_pos (by omega), if_pos (by omega)]
  · intro p hp
    rw [applyShapePadding, if_pos (by omega), if_neg (by omega)]

/-- Witness for C8 on a concrete 2×2 all-ink mask with radius 1. -/
theorem claim_C8_morphology_witness :
    applyShapePadding [1, 1, 1, 1] 2 2 1 = morphMask [1, 1, 1, 1] 2 2 ((1 : Int) : ℚ) .erode :=
  (claim_C8_morphology [1, 1, 1, 1] 2 2 1 0 0 (le_refl 1) (by decide) (by decide)
    (by
      intro i
      rcases i with _ | _ | _ | _ | i <;> simp [List.getD])).2.2.1 1 (by decide)

/-! ## Claim C6 -/

/-- A fold whose step never changes the state is the identity. -/
theorem foldl_id_of_fix {α β : Type} (f : α → β → α) (l : List β) (st : α)
    (h : ∀ (st2 : α) (b : β), b ∈ l → f st2 b = st2) : l.foldl f st = st := by
  induction l generalizing st with
  | nil => rfl
  | cons a l ih =>
    rw [List.foldl_cons, h st a (List.mem_cons_self a l)]
    exact ih st fun st2 b hb => h st2 b (List.mem_cons_of_mem a hb)

/-- On an all-zero mask the bounding-box scan keeps its sentinel
state. -/
theorem bboxScan_zero {mask : List Nat} {W H : Nat} (h : ∀ i, mask.getD i 0 = 0) :
    bboxScan mask W H = (W, H, (-1 : Int), (-1 : Int)) := by
  rw [bboxScan]
  refine foldl_id_of_fix _ _ _ ?_
  intro st y _
  refine foldl_id_of_fix _ _ _ ?_
  intro st2 x _
  have hne : ¬((mask.getD (y * W + x) 0 == 1) = true) := by
    rw [beq_iff_eq, h (y * W + x)]
    decide
  rw [if_neg hne]

/-- Congruence for `flatMap` over the members of the list. -/
theorem flatMap_congr_mem {α β : Type} {l : List α} {f g : α → List β}
    (h : ∀ a ∈ l, f a = g a) : l.flatMap f = l.flatMap g := by
  induction l with
  | nil => rfl
  | cons a l ih =>
    rw [List.flatMap_cons, List.flatMap_cons, h a (List.mem_cons_self a l),
      ih fun b hb => h b (List.mem_cons_of_mem a hb)]

/-- A list of `m` copies of `n` zero-rows is `n * m` zeros. -/
theorem flatMap_replicate_zero {α : Type} (l : List α) (m : Nat) :
    l.flatMap (fun _ => List.replicate m (0 : Nat)) = List.replicate (l.length * m) 0 := by
  induction l with
  | nil => simp
  | cons a l ih =>
    rw [List.flatMap_cons, ih, List.length_cons]
    rw [show (l.length + 1) * m = m + l.length * m by ring, List.replicate_add]

/-- C6 counterexample: a zero-ink rasterization on the minimal 8×8
sprite canvas with the default padding 1 yields a 2×2 empty sprite, not
the 1×1 sprite the claim states for every padding value. -/
theorem claim_C6_counterexample :
    (getWordSpriteCrop 8 8 (List.replicate 64 0) 1).width = 2 ∧
    (getWordSpriteCrop 8 8 (List.replicate 64 0) 1).height = 2 ∧
    (getWordSpriteCrop 8 8 (List.replicate 64 0) 1).mask = [0, 0, 0, 0] ∧
    ¬((getWordSpriteCrop 8 8 (List.replicate 64 0) 1).width = 1 ∧
      (getWordSpriteCrop 8 8 (List.replicate 64 0) 1).height = 1) := by
  decide

/-- C6 (amended): for every zero-ink rasterization the crop stage
returns, instead of failing, a degenerate empty sprite whose mask has no
ink pixel; its dimensions are
`(min padPx (W-1) + 1) × (min padPx (H-1) + 1)` where
`padPx = max 0 ⌊padding⌋` — i.e. `1 × 1` exactly when the normalised
padding is 0, and `(padPx+1) × (padPx+1)` otherwise (the re-padding of
the degenerate bounding box). -/
theorem claim_C6_degenerate_sprite (W H : Nat) (mask : List Nat) (padding : ℚ)
    (hW : 1 ≤ W) (hH : 1 ≤ H) (hz : ∀ i, mask.getD i 0 = 0) :
    getWordSpriteCrop W H mask padding =
      { width := min (max 0 ⌊padding⌋).toNat (W - 1) + 1,
        height := min (max 0 ⌊padding⌋).toNat (H - 1) + 1,
        mask := List.replicate
          ((min (max 0 ⌊padding⌋).toNat (H - 1) + 1) *
            (min (max 0 ⌊padding⌋).toNat (W - 1) + 1)) 0 } := by
  rw [getWordSpriteCrop, rasterCrop, bboxScan_zero hz]
  dsimp only
  rw [if_pos (by decide)]
  dsimp only
  have hX0 : clampI (((0 : Nat) : Int) - ((max 0 ⌊padding⌋).toNat : Int)) 0 ((W : Int) - 1) =
      0 := by
    simp only [clampI]
    omega
  have hY0 : clampI (((0 : Nat) : Int) - ((max 0 ⌊padding⌋).toNat : Int)) 0 ((H : Int) - 1) =
      0 := by
    simp only [clampI]
    omega
  have hX1 : clampI (((0 : Nat) : Int) + ((max 0 ⌊padding⌋).toNat : Int)) 0 ((W : Int) - 1) =
      ((min (max 0 ⌊padding⌋).toNat (W - 1) : Nat) : Int) := by
    simp only [clampI]
    omega
  have hY1 : clampI (((0 : Nat) : Int) + ((max 0 ⌊padding⌋).toNat : Int)) 0 ((H : Int) - 1) =
      ((min (max 0 ⌊padding⌋).toNat (H - 1) : Nat) : Int) := by
    simp only [clampI]
    omega
  rw [hX0, hY0, hX1, hY1]
  have hCW : (((min (max 0 ⌊padding⌋).toNat (W - 1) : Nat) : Int) - 0 + 1).toNat =
      min (max 0 ⌊padding⌋).toNat (W - 1) + 1 := by omega
  have hCH : (((min (max 0 ⌊padding⌋).toNat (H - 1) : Nat) : Int) - 0 + 1).toNat =
      min (max 0 ⌊padding⌋).toNat (H - 1) + 1 := by omega
  rw [hCW, hCH]
  have hrows : ∀ yy : Nat,
      (List.range (min (max 0 ⌊padding⌋).toNat (W - 1) + 1)).map
        (fun xx => mask.getD (((0 : Int).toNat + yy) * W + ((0 : Int).toNat + xx)) 0) =
      List.replicate (min (max 0 ⌊padding⌋).toNat (W - 1) + 1) 0 := by
    intro yy
    rw [show (List.replicate (min (max 0 ⌊padding⌋).toNat (W - 1) + 1) (0 : Nat)) =
      (List.range (min (max 0 ⌊padding⌋).toNat (W - 1) + 1)).map (fun _ => (0 : Nat)) by
        rw [List.map_const', List.length_range]]
    exact List.map_congr_left fun xx _ => hz _
  have hmain : (List.range (min (max 0 ⌊padding⌋).toNat (H - 1) + 1)).flatMap
        (fun yy => (List.range (min (max 0 ⌊padding⌋).toNat (W - 1) + 1)).map
          (fun xx => mask.getD (((0 : Int).toNat + yy) * W + ((0 : Int).toNat + xx)) 0)) =
      List.replicate
        ((min (max 0 ⌊padding⌋).toNat (H - 1) + 1) *
          (min (max 0 ⌊padding⌋).toNat (W - 1) + 1)) 0 := by
    rw [flatMap_congr_mem fun yy _ => hrows yy, flatMap_replicate_zero, List.length_range]
  rw [hmain]

/-- Witness for C6 (amended) at a concrete zero-ink 8×8 canvas with
padding 3. -/
theorem claim_C6_degenerate_sprite_witness :
    getWordSpriteCrop 8 8 (List.replicate 64 0) 3 =
      { width := min (max 0 ⌊(3 : ℚ)⌋).toNat (8 - 1) + 1,
        height := min (max 0 ⌊(3 : ℚ)⌋).toNat (8 - 1) + 1,
        mask := List.replicate
          ((min (max 0 ⌊(3 : ℚ)⌋).toNat (8 - 1) + 1) *
            (min (max 0 ⌊(3 : ℚ)⌋).toNat (8 - 1) + 1)) 0 } :=
  claim_C6_degenerate_sprite 8 8 (List.replicate 64 0) 3 (by decide) (by decide)
    (by
      intro i
      by_cases hi : i < 64
      · rw [List.getD_eq_getElem _ _ (by simpa using hi), List.getElem_replicate]
      · rw [List.getD_eq_default]
        simpa using le_of_not_lt hi)

/-! ## Claim C4 -/

/-- With an all-zero allowed mask, no position can pass the collision
test for a sprite that has at least one ink pixel. -/
theorem canPlaceAt_allZero {s : Sprite} {am : List Nat} {x y : Int} {W H : Nat}
    {occ : List Nat} (hz : ∀ i, am.getD i 0 ≠ 1) (hink : ∃ q, q ∈ inkPixels s) :
    canPlaceAt s x y W H (some am) occ = false := by
  by_contra hc
  rw [Bool.not_eq_false] at hc
  obtain ⟨q, hq⟩ := hink
  exact hz _ ((canPlaceAt_pix hc hq).1 am rfl)

/-- When no position passes the collision test the spiral loop finds
nothing. -/
theorem tryLoop_none {env : Env} {s : Sprite} {W H : Nat} {cx cy ss maxT : ℚ}
    {allowed : Option (List Nat)} {occ : List Nat}
    (h : ∀ x y : Int, canPlaceAt s x y W H allowed occ = false) :
    ∀ (fuel : Nat) (t : ℚ), tryLoop env s W H cx cy ss maxT allowed occ t fuel = none := by
  intro fuel
  induction fuel with
  | zero => intro t; rfl
  | succ n ih =>
    intro t
    rw [tryLoop]
    split
    · dsimp only
      rw [if_neg]
      · exact ih _
      · rw [h, Bool.and_false]
        decide
    · rfl

/-- When no position passes the collision test, `tryPlaceOne` places
nothing and leaves the grid unchanged. -/
theorem tryPlaceOne_stuck {env : Env} {s : Sprite} {W H : Nat} {cx cy : ℚ} {mt : Nat}
    {ss maxT : ℚ} {allowed : Option (List Nat)} {occ : List Nat}
    (h : ∀ x y : Int, canPlaceAt s x y W H allowed occ = false) :
    tryPlaceOne env s W H cx cy mt ss maxT allowed occ = (none, occ) := by
  rw [tryPlaceOne]
  split
  · rfl
  · rw [tryLoop_none h]

/-- When no position passes the collision test for the word's sprite,
the per-word loop body is the identity. -/
theorem placeStep_none {env : Env} {W H : Nat} {allowed : Option (List Nat)}
    {cx cy sj : ℚ} {mt : Nat} {ss mT : ℚ} {wp : Nat} {st : List Placement × List Nat}
    {iw : Nat × WordInput}
    (h : ∀ x y : Int,
      canPlaceAt (env.getSprite iw.2.text (max 1 (if iw.2.size = 0 then 1 else iw.2.size)) wp)
        x y W H allowed st.2 = false) :
    placeStep env W H allowed cx cy sj mt ss mT wp st iw = st := by
  unfold placeStep
  dsimp only
  rw [tryPlaceOne_stuck h]

/-- A placement run whose allowed mask has no cell equal to 1 (and
passes the length validation) succeeds with zero placements and
coverage fraction 0, provided every sprite the rasterizer produces has
at least one ink pixel.  No error of any kind is raised. -/
theorem emptyMaskRun (env : Env) (words : List WordInput) (opts : PlaceOpts) (am : List Nat)
    (ham : opts.allowedMask = some am)
    (hlen : am.length = natWidth opts * natHeight opts)
    (hz : ∀ i, am.getD i 0 ≠ 1)
    (hink : ∀ (t : String) (sz : ℚ) (pad : Nat), ∃ q, q ∈ inkPixels (env.getSprite t sz pad)) :
    placeWordsAdvanced env words opts = .ok (placeWordsCore env words opts) ∧
    (placeWordsCore env words opts).placements = [] ∧
    (placeWordsCore env words opts).covFrac = 0 := by
  refine ⟨?_, ?_, ?_⟩
  · rw [placeWordsAdvanced, ham]
    dsimp only
    rw [if_neg (by simp [hlen])]
  · rw [placeWordsCore_placements]
    unfold coreFold
    rw [ham]
    rw [foldl_id_of_fix _ _ _ fun st2 b _ =>
      placeStep_none fun x y => canPlaceAt_allZero hz (hink _ _ _)]
  · have hfrac : (placeWordsCore env words opts).covFrac =
        (calculateCoverage (coreFold env words opts).2 opts.allowedMask (natWidth opts)
          (natHeight opts)).covFrac := rfl
    rw [hfrac, ham, calculateCoverage]
    dsimp only
    have hfilter : (List.range am.length).filter (fun i => am.getD i 0 == 1) = [] :=
      List.filter_eq_nil_iff.mpr fun a _ => by
        simpa [List.getD_eq_getElem?_getD] using hz a
    rw [hfilter]
    rw [if_neg (by decide)]

/-- Concrete options: 1×1 canvas whose 1-cell allowed mask is all
zero. -/
def optsZeroMask : PlaceOpts :=
  { optsW1 with allowedMask := some [0] }

/-- C4 counterexample: on a shape mask with zero allowed pixels the
render request does NOT fail — `placeWordsAdvanced` succeeds,
silently returning an empty placement list with coverage fraction 0
(there is no `EmptyAllowedRegion` error anywhere in the code). -/
theorem claim_C4_counterexample :
    ∃ r : PlaceResult,
      placeWordsAdvanced envZ [{ text := "a", size := 4 }] optsZeroMask = .ok r ∧
      r.placements = [] ∧ r.covFrac = 0 := by
  have hz : ∀ i : Nat, (([0] : List Nat)).getD i 0 ≠ 1 := by
    intro i
    rcases i with _ | i <;> simp [List.getD]
  have hink : ∀ (t : String) (sz : ℚ) (pad : Nat),
      ∃ q, q ∈ inkPixels (envZ.getSprite t sz pad) :=
    fun t sz pad =>
      ⟨(0, 0), by
        show (0, 0) ∈ inkPixels { width := 1, height := 1, mask := [1] }
        decide⟩
  obtain ⟨h1, h2, h3⟩ :=
    emptyMaskRun envZ [{ text := "a", size := 4 }] optsZeroMask [0] rfl (by decide) hz hink
  exact ⟨placeWordsCore envZ [{ text := "a", size := 4 }] optsZeroMask, h1, h2, h3⟩

/-- C4 (amended): when the supplied shape mask has zero allowed pixels
(and passes the length validation), the engine does not surface any
failure: the call succeeds, returning zero placements (whenever the
rasterizer produces sprites with at least one ink pixel, as it does for
visible text) and coverage fraction 0.  The spec's `EmptyAllowedRegion`
error does not exist in the code. -/
theorem claim_C4_empty_mask (env : Env) (words : List WordInput) (opts : PlaceOpts)
    (am : List Nat) (ham : opts.allowedMask = some am)
    (hlen : am.length = natWidth opts * natHeight opts)
    (hz : ∀ i, am.getD i 0 ≠ 1)
    (hink : ∀ (t : String) (sz : ℚ) (pad : Nat), ∃ q, q ∈ inkPixels (env.getSprite t sz pad)) :
    placeWordsAdvanced env words opts = .ok (placeWordsCore env words opts) ∧
    (placeWordsCore env words opts).placements = [] ∧
    (placeWordsCore env words opts).covFrac = 0 :=
  emptyMaskRun env words opts am ham hlen hz hink

/-- Witness for C4 (amended) on the concrete all-zero 1-cell mask. -/
theorem claim_C4_empty_mask_witness :
    placeWordsAdvanced envZ [{ text := "b", size := 7 }] optsZeroMask =
      .ok (placeWordsCore envZ [{ text := "b", size := 7 }] optsZeroMask) ∧
    (placeWordsCore envZ [{ text := "b", size := 7 }] optsZeroMask).placements = [] ∧
    (placeWordsCore envZ [{ text := "b", size := 7 }] optsZeroMask).covFrac = 0 :=
  claim_C4_empty_mask envZ [{ text := "b", size := 7 }] optsZeroMask [0] rfl (by decide)
    (by
      intro i
      rcases i with _ | i <;> simp [List.getD])
    (fun t sz pad =>
      ⟨(0, 0), by
        show (0, 0) ∈ inkPixels { width := 1, height := 1, mask := [1] }
        decide⟩)

/-! ## Claim C3 -/

/-- The fuel supplied by `shrinkFuel` never truncates the shrink-retry
loop: with more than `⌈s⌉` fuel the result is fuel-independent (the
guard `attemptSize < 4` is always reached first), so `shrinkLoop` is
exactly the `while` loop of the source. -/
theorem shrinkLoopAux_fuel_stable {A : Type} (att : Nat → ℚ → Option A) :
    ∀ (fuel k : Nat) (s : ℚ), ⌈s⌉.toNat < fuel →
      shrinkLoopAux att fuel k s = shrinkLoopAux att (fuel + 1) k s := by
  intro fuel
  induction fuel with
  | zero => intro k s h; omega
  | succ n ih =>
    intro k s h
    rw [shrinkLoopAux, shrinkLoopAux]
    by_cases h4 : (4 : ℚ) ≤ s
    · rw [if_pos h4, if_pos h4]
      rcases hatt : att k s with _ | a
      · have hle : s * (7 / 10) ≤ s - 1 := by linarith
        have hceil : ⌈s * (7 / 10)⌉ ≤ ⌈s⌉ - 1 := by
          calc ⌈s * (7 / 10)⌉ ≤ ⌈s - 1⌉ := Int.ceil_le_ceil hle
            _ = ⌈s⌉ - 1 := Int.ceil_sub_one s
        have h4' : (4 : ℤ) ≤ ⌈s⌉ := by
          have h44 := Int.ceil_le_ceil h4
          simpa using h44
        exact ih (k + 1) (s * (7 / 10)) (by omega)
      · rfl
    · rw [if_neg h4, if_neg h4]

/-- A successful shrink loop comes from a successful attempt. -/
theorem shrinkLoopAux_some {A : Type} {att : Nat → ℚ → Option A} :
    ∀ {fuel k : Nat} {s : ℚ} {a : A}, shrinkLoopAux att fuel k s = some a →
      ∃ (k' : Nat) (s' : ℚ), att k' s' = some a := by
  intro fuel
  induction fuel with
  | zero =>
    intro k s a h
    exact absurd h (by rw [shrinkLoopAux]; simp)
  | succ n ih =>
    intro k s a h
    rw [shrinkLoopAux] at h
    split at h
    · rcases hatt : att k s with _ | b
      · rw [hatt] at h
        exact ih h
      · rw [hatt] at h
        exact ⟨k, s, by rw [hatt, Option.some.inj h]⟩
    · exact absurd h (by simp)

/-- A successful force loop comes from a successful attempt. -/
theorem forceLoopAux_some {A : Type} {att : Nat → ℚ → Option A} :
    ∀ {fuel k : Nat} {fs : ℚ} {a : A}, forceLoopAux att fuel k fs = some a →
      ∃ (k' : Nat) (s' : ℚ), att k' s' = some a := by
  intro fuel
  induction fuel with
  | zero =>
    intro k fs a h
    exact absurd h (by rw [forceLoopAux]; simp)
  | succ n ih =>
    intro k fs a h
    rw [forceLoopAux] at h
    rcases hatt : att k fs with _ | b
    · rw [hatt] at h
      exact ih h
    · rw [hatt] at h
      exact ⟨k, fs, by rw [hatt, Option.some.inj h]⟩

/-- Every placement of a single-word run carries the word's text. -/
theorem placeWordsCore_single_text (env : Env) (w : WordInput) (opts : PlaceOpts) :
    ∀ p ∈ (placeWordsCore env [w] opts).placements, p.text = w.text := by
  intro p hp
  rw [placeWordsCore_placements] at hp
  unfold coreFold at hp
  rw [show ([w].enum) = [(0, w)] from rfl, List.foldl_cons, List.foldl_nil] at hp
  unfold placeStep at hp
  dsimp only at hp
  rcases tryPlaceOne_spec env
      (env.getSprite w.text (max 1 (if w.size = 0 then 1 else w.size))
        (max 0 ⌊opts.wordPadding⌋).toNat)
      (natWidth opts) (natHeight opts)
      ((coreCenter opts).1 + ((env.jitter 0).1 * 2 - 1) * max 0 opts.startJitter)
      ((coreCenter opts).2 + ((env.jitter 0).2 * 2 - 1) * max 0 opts.startJitter)
      (max 50 ⌊opts.maxTriesPerWord⌋).toNat (max (1 / 2) opts.spiralStep)
      (max 1 opts.spiralTurns * env.piA * 2) opts.allowedMask (seedMask opts)
    with ⟨x, y, heq, _⟩ | heq
  · rw [heq] at hp
    dsimp only at hp
    rcases List.mem_append.mp hp with h' | h'
    · exact absurd h' (List.not_mem_nil p)
    · rw [List.mem_singleton] at h'
      subst h'
      rfl
  · rw [heq] at hp
    exact absurd hp (List.not_mem_nil p)

/-- A successful shrink attempt records the word's text and original
index. -/
theorem shrinkAttempt_some {ctx : RenderCtx} {minSize sizeRange : ℚ} {word : WordInput}
    {i : Nat} {occ : List Nat} {k : Nat} {s : ℚ} {p : Placement} {occ2 : List Nat}
    (h : shrinkAttempt ctx minSize sizeRange word i occ k s = some (p, occ2)) :
    p.originalIndex = some (i : Int) ∧ p.text = word.text := by
  rw [shrinkAttempt] at h
  rcases hps : (placeWordsCore (ctx.envWith (ctx.shrinkJitter i k))
      [{ word with
          size := max 4 ((⌊nonlinearScale ctx minSize sizeRange word.size s⌋ : Int) : ℚ) }]
      (phase1Opts ctx occ)).placements with _ | ⟨p0, rest⟩
  · rw [hps] at h
    exact absurd h (by simp)
  · rw [hps] at h
    have hpair := Option.some.inj h
    have hp : p = { p0 with originalIndex := some (i : Int) } := (congrArg Prod.fst hpair).symm
    subst hp
    refine ⟨rfl, ?_⟩
    have hmem : p0 ∈ (placeWordsCore (ctx.envWith (ctx.shrinkJitter i k))
        [{ word with
            size := max 4 ((⌊nonlinearScale ctx minSize sizeRange word.size s⌋ : Int) : ℚ) }]
        (phase1Opts ctx occ)).placements := by
      rw [hps]
      exact List.mem_cons_self p0 rest
    exact placeWordsCore_single_text (ctx.envWith (ctx.shrinkJitter i k))
      { word with
          size := max 4 ((⌊nonlinearScale ctx minSize sizeRange word.size s⌋ : Int) : ℚ) }
      (phase1Opts ctx occ) p0 hmem

/-- A successful force attempt records the word's text and original
index. -/
theorem forceAttempt_some {ctx : RenderCtx} {word : WordInput} {i : Nat} {occ : List Nat}
    {k : Nat} {fs : ℚ} {p : Placement} {occ2 : List Nat}
    (h : forceAttempt ctx word i occ k fs = some (p, occ2)) :
    p.originalIndex = some (i : Int) ∧ p.text = word.text := by
  rw [forceAttempt] at h
  rcases hps : (placeWordsCore (ctx.envWith (ctx.forceJitter i k))
      [{ word with size := fs }] (forceOpts ctx occ)).placements with _ | ⟨p0, rest⟩
  · rw [hps] at h
    exact absurd h (by simp)
  · rw [hps] at h
    have hpair := Option.some.inj h
    have hp : p = { p0 with originalIndex := some (i : Int) } := (congrArg Prod.fst hpair).symm
    subst hp
    refine ⟨rfl, ?_⟩
    have hmem : p0 ∈ (placeWordsCore (ctx.envWith (ctx.forceJitter i k))
        [{ word with size := fs }] (forceOpts ctx occ)).placements := by
      rw [hps]
      exact List.mem_cons_self p0 rest
    exact placeWordsCore_single_text (ctx.envWith (ctx.forceJitter i k))
      { word with size := fs } (forceOpts ctx occ) p0 hmem

/-- C3 (amended): the Phase-1 loop does NOT guarantee that every word is
placed.  Each per-word step either appends exactly one placement for the
word (carrying its text and original index) — precisely when one of its
shrink-retry or force-sub-pass attempts succeeds — or leaves the state
unchanged, silently skipping the word, precisely when the shrink-retry
loop and all 10 force attempts fail (e.g. when the word cannot fit the
free allowed region at any attempted size). -/
theorem claim_C3_word_drop (ctx : RenderCtx) (minSize sizeRange : ℚ)
    (st : List Placement × List Nat) (iw : Nat × WordInput) :
    (∃ (p : Placement) (occ2 : List Nat),
      phase1Step ctx minSize sizeRange st iw = (st.1 ++ [p], occ2) ∧
      p.originalIndex = some (iw.1 : Int) ∧ p.text = iw.2.text ∧
      (shrinkLoop (shrinkAttempt ctx minSize sizeRange iw.2 iw.1 st.2) iw.2.size ≠ none ∨
        forceLoopAux (forceAttempt ctx iw.2 iw.1 st.2) 10 0 4 ≠ none)) ∨
    (phase1Step ctx minSize sizeRange st iw = st ∧
      shrinkLoop (shrinkAttempt ctx minSize sizeRange iw.2 iw.1 st.2) iw.2.size = none ∧
      forceLoopAux (forceAttempt ctx iw.2 iw.1 st.2) 10 0 4 = none) := by
  unfold phase1Step
  rcases hs : shrinkLoop (shrinkAttempt ctx minSize sizeRange iw.2 iw.1 st.2) iw.2.size
    with _ | ⟨p, occ2⟩
  · rcases hf : forceLoopAux (forceAttempt ctx iw.2 iw.1 st.2) 10 0 4 with _ | ⟨p, occ2⟩
    · right
      exact ⟨rfl, rfl, rfl⟩
    · left
      obtain ⟨k', s', hatt⟩ := forceLoopAux_some hf
      obtain ⟨ho, htxt⟩ := forceAttempt_some hatt
      exact ⟨p, occ2, rfl, ho, htxt, Or.inr (by simp)⟩
  · left
    obtain ⟨k', s', hatt⟩ := shrinkLoopAux_some hs
    obtain ⟨ho, htxt⟩ := shrinkAttempt_some hatt
    exact ⟨p, occ2, rfl, ho, htxt, Or.inl (by simp)⟩

section C3Counterexample

set_option allowUnsafeReducibility true

attribute [local semireducible] Rat.add Rat.mul Rat.sub Rat.inv Rat.neg

/-- Concrete adaptive-render context on a 2×2 canvas whose allowed mask has
one allowed pixel, but whose sprites are 5×5 — too large ever to fit, so
every shrink-retry and force attempt quick-rejects. -/
def ctxCE : RenderCtx :=
  { cosF := fun _ => 0, sinF := fun _ => 0, piA := 3,
    getSprite := fun _ _ _ => { width := 5, height := 5, mask := List.replicate 25 1 },
    powF := fun _ _ => 0,
    shrinkJitter := fun _ _ => (1 / 2, 1 / 2), forceJitter := fun _ _ => (1 / 2, 1 / 2),
    fillJitter := fun _ => (1 / 2, 1 / 2), fillPick := fun _ => 0,
    width := 2, height := 2, allowedMask := [1, 0, 0, 0], wordPadding := 1,
    targetCoverage := 85 / 100, nonlinearPower := 1 / 2 }

/-- C3 counterexample: the adaptive pipeline runs with a non-empty allowed
region (the mask's cell 0 is allowed) on a well-formed word of positive
size, yet the word appears nowhere in the output — Phase 1's shrink-retry
and force sub-pass both fail (the sprite never fits the canvas) and the
word is silently dropped, refuting the guaranteed-placement claim. -/
theorem claim_C3_counterexample :
    renderAdaptive ctxCE [{ text := "w", size := 4 }] = [] ∧
    ctxCE.allowedMask.getD 0 0 = 1 := by
  constructor
  · have hn : normalizeWords [{ text := "w", size := 4 }] = [{ text := "w", size := 4 }] := by
      rw [normalizeWords]
      rw [show ([{ text := "w", size := 4 }] : List WordInput).filter
          (fun d => !(d.text == "") && decide (0 < d.size)) = [{ text := "w", size := 4 }] from by
        decide]
      exact List.mergeSort_singleton _
    show (fillPhase ctxCE (normalizeWords [{ text := "w", size := 4 }])
        (phase1 ctxCE (normalizeWords [{ text := "w", size := 4 }])).1
        (phase1 ctxCE (normalizeWords [{ text := "w", size := 4 }])).2).1 = []
    rw [hn]
    rw [show phase1 ctxCE [{ text := "w", size := 4 }] = ([], [0, 0, 0, 0]) from by decide]
    decide
  · decide

end C3Counterexample

section C2ClosedWitness

set_option allowUnsafeReducibility true

attribute [local semireducible] Rat.add Rat.mul Rat.sub Rat.inv Rat.neg

/-- Witness for C2: the concrete run of `placeWordsCore` on a fully allowed
1×1 canvas places the word "a" at (0, 0); instantiating the containment
theorem at that placement and its single ink pixel (canvas index 0)
discharges every hypothesis and yields that the allowed cell is 1. -/
theorem claim_C2_containment_witness :
    ([1] : List Nat).getD 0 0 = 1 :=
  claim_C2_containment envZ [{ text := "a", size := 4 }] optsA1
    (placeWordsCore envZ [{ text := "a", size := 4 }] optsA1) [1] (by rfl) rfl
    { text := "a", x := 0, y := 0, w := 1, h := 1, fontSize := 4,
      sprite := { width := 1, height := 1, mask := [1] }, originalIndex := none }
    (by decide) 0 (by decide)

end C2ClosedWitness
